import Mathlib

/-
Verification development for the sports-prediction ingestion and analytics
core: a shallow embedding of the entity resolver, the match/odds upsert
engine (collect_football_data_org_history.process_and_store_matches and the
database_importer variants) and the form-analytics engine
(data_preprocessing.get_team_form_features), together with theorems about
the claims of the specification.
-/

set_option maxHeartbeats 1000000

/-! ## Form analytics engine: data_preprocessing.get_team_form_features

A history row of `historical_matches_df`.  Timestamps are embedded as the
result of `pd.to_datetime(..., errors='coerce')`: `none` stands for a
null/unparseable timestamp (NaT), `some t` for a parsed timestamp on an
integer time axis.  Scores are embedded as the result of
`pd.to_numeric(..., errors='coerce')`: `none` stands for a missing or
non-numeric score. -/

namespace FormFeat

structure HistRow where
  homeTeamId : Int
  awayTeamId : Int
  homeScore : Option Int
  awayScore : Option Int
  utcDate : Option Int
deriving DecidableEq, Repr

/-- The result dictionary of `get_team_form_features`.  The code prefixes the
keys with `form_overall` / `form_spec_venue` depending on `specific_venue`;
the numeric content is independent of the prefixing, so the embedding keeps
just the four counters. -/
structure FormResult where
  W : Nat
  D : Nat
  L : Nat
  games_played : Nat
deriving DecidableEq, Repr

def zeroForm : FormResult := ⟨0, 0, 0, 0⟩

/-- The row filter of get_team_form_features: the team appears as home or away
side, the timestamp is parseable (notna) and strictly earlier than the cutoff,
and the venue filter (`specific_venue == 'home'` / `'away'`; any other value,
including None, applies no venue restriction, matching the code's
if/elif/else). -/
def eligibleB (tid : Int) (d : Int) (venue : Option String) (r : HistRow) : Bool :=
  (decide (r.homeTeamId = tid) || decide (r.awayTeamId = tid)) &&
  (match r.utcDate with
   | some t => decide (t < d)
   | none => false) &&
  (match venue with
   | some v =>
     if v = "home" then decide (r.homeTeamId = tid)
     else if v = "away" then decide (r.awayTeamId = tid)
     else true
   | none => true)

/-- Sort key: every row reaching the sort has a parseable date (the filter
removed NaT rows), so the default value is irrelevant. -/
def dateOf (r : HistRow) : Int := r.utcDate.getD 0

/-- Insertion into a descending-by-date list (sort_values ascending=False). -/
def insertDesc (r : HistRow) : List HistRow → List HistRow
  | [] => [r]
  | x :: xs => if dateOf x < dateOf r then r :: x :: xs else x :: insertDesc r xs

/-- Descending sort by timestamp (`sort_values(by='utcDate', ascending=False)`). -/
def sortDesc (l : List HistRow) : List HistRow := l.foldr insertDesc []

/-- One iteration of the classification loop: a row with a missing/non-numeric
score decrements `actual_games_played` and contributes nothing; otherwise the
outcome is classified from the team's perspective. -/
def formStep (tid : Int) (acc : FormResult) (r : HistRow) : FormResult :=
  match r.homeScore, r.awayScore with
  | some hs, some a =>
    if r.homeTeamId = tid then
      if hs > a then { acc with W := acc.W + 1 }
      else if hs = a then { acc with D := acc.D + 1 }
      else { acc with L := acc.L + 1 }
    else if r.awayTeamId = tid then
      if a > hs then { acc with W := acc.W + 1 }
      else if a = hs then { acc with D := acc.D + 1 }
      else { acc with L := acc.L + 1 }
    else acc
  | _, _ => { acc with games_played := acc.games_played - 1 }

/-- Shallow embedding of `get_team_form_features(team_id, match_date_str,
historical_matches_df, num_games, specific_venue)`.  `teamId = none` embeds a
null team id; `matchDate = none` embeds a null or unparseable
`match_date_str` (the code returns the default dict in both cases, via the
None check and the ValueError handler of `pd.to_datetime`). -/
def get_team_form_features (teamId : Option Int) (matchDate : Option Int)
    (hist : List HistRow) (numGames : Nat) (venue : Option String) : FormResult :=
  match teamId, matchDate with
  | some tid, some d =>
    if hist.isEmpty then zeroForm
    else
      let teamMatches := hist.filter (eligibleB tid d venue)
      if teamMatches.isEmpty then zeroForm
      else
        let recent := (sortDesc teamMatches).take numGames
        if recent.length = 0 then zeroForm
        else recent.foldl (formStep tid) ⟨0, 0, 0, recent.length⟩
  | _, _ => zeroForm

/-- The window of rows the function classifies: the eligible rows, sorted
descending by timestamp, truncated to the first `numGames`. -/
def formWindow (tid : Int) (d : Int) (hist : List HistRow) (numGames : Nat)
    (venue : Option String) : List HistRow :=
  (sortDesc (hist.filter (eligibleB tid d venue))).take numGames

/-- A row whose scores are missing or non-numeric. -/
def corruptB (r : HistRow) : Bool := r.homeScore.isNone || r.awayScore.isNone

def winB (tid : Int) (r : HistRow) : Bool :=
  match r.homeScore, r.awayScore with
  | some hs, some a =>
    if r.homeTeamId = tid then decide (hs > a)
    else if r.awayTeamId = tid then decide (a > hs)
    else false
  | _, _ => false

def drawB (tid : Int) (r : HistRow) : Bool :=
  match r.homeScore, r.awayScore with
  | some hs, some a =>
    if r.homeTeamId = tid then decide (hs = a)
    else if r.awayTeamId = tid then decide (a = hs)
    else false
  | _, _ => false

def lossB (tid : Int) (r : HistRow) : Bool :=
  match r.homeScore, r.awayScore with
  | some hs, some a =>
    if r.homeTeamId = tid then decide (hs < a)
    else if r.awayTeamId = tid then decide (a < hs)
    else false
  | _, _ => false

end FormFeat

/-! ## Match/odds upsert engine:
collect_football_data_org_history.process_and_store_matches

The store is the set of tables the collector scripts touch, embedded as
lists of rows plus the next AUTOINCREMENT rowid per table.  Prices from the
odds feed are embedded as rationals standing for the parsed numeric values.
This is a single-writer sequential model (spec section 5): the
IntegrityError / INSERT OR IGNORE re-fetch branches of the resolver, which
are reachable only under a concurrent conflicting insert, are elided. -/

namespace HistColl

structure LeagueRow where
  leagueId : Nat
  name : String
  sport : String
  country : Option String
  sourceLeagueId : Option String
deriving DecidableEq, Repr

structure TeamRow where
  teamId : Nat
  name : String
  sport : String
  sourceTeamId : Option String
deriving DecidableEq, Repr

structure MatchRow where
  matchId : Nat
  leagueId : Nat
  homeTeamId : Nat
  awayTeamId : Nat
  datetimeUtc : Option String
  status : Option String
  homeScore : Option Int
  awayScore : Option Int
  winner : Option String
  stage : Option String
  matchday : Option Int
  isMock : Int
  sourceMatchId : String
  sourceName : String
deriving DecidableEq, Repr

structure OddsRow where
  oddId : Nat
  matchId : Nat
  bookmaker : String
  marketType : String
  homeOdds : Rat
  drawOdds : Rat
  awayOdds : Rat
  timestampUtc : Option String
deriving DecidableEq, Repr

structure DB where
  leagues : List LeagueRow
  teams : List TeamRow
  matchRows : List MatchRow
  odds : List OddsRow
  nextLeagueId : Nat
  nextTeamId : Nat
  nextMatchId : Nat
  nextOddId : Nat
deriving DecidableEq, Repr

/-- One normalized record of the football-data.org matches feed, with the
field extraction of the loop body already applied: team names default to ""
when absent (Python falsiness), scores are the parsed fullTime values,
`oddsVals` is `some (h, d, a)` exactly when the odds dict is present, not
blocked by the Odds-Package message, and all three prices parse as floats
(any other case is the skip path of the odds block). -/
structure ApiMatch where
  homeTeamName : String
  homeTeamSourceId : Option String
  awayTeamName : String
  awayTeamSourceId : Option String
  utcDate : Option String
  status : Option String
  ftHome : Option Int
  ftAway : Option Int
  stage : Option String
  matchday : Option Int
  sourceMatchId : String
  oddsVals : Option (Rat × Rat × Rat)
deriving DecidableEq, Repr

def sourceNameHist : String := "football-data.org-history"

/-- Replace the first element satisfying `p` by its image under `f`: the
embedding of an SQL UPDATE keyed on the primary key of the row that a
preceding SELECT (which returns the first match) produced — the rowid
primary key is unique in sqlite, so exactly the found row is rewritten. -/
def replaceFirst (p : α → Bool) (f : α → α) : List α → List α
  | [] => []
  | x :: xs => if p x then f x :: xs else x :: replaceFirst p f xs

/-- The fallback `_get_or_create_entity_id` of
collect_football_data_org_history.py (the import of the data_collection
variant fails, data_collection.py defines no such function, so this
fallback is the resolver the collector runs with).  Lookup is by
(name, sport); on a hit the id is returned unchanged (no source-id
backfill in this variant); on a miss a new row is inserted and its fresh
rowid returned.  Fails (None) only on an empty/missing name or sport. -/
def leagueKeyB (name sport : String) (L : LeagueRow) : Bool :=
  decide (L.name = name ∧ L.sport = sport)

def teamKeyB (name sport : String) (t : TeamRow) : Bool :=
  decide (t.name = name ∧ t.sport = sport)

def getOrCreateEntityId (db : DB) (entityType name sport : String)
    (sourceId : Option String) (country : Option String) : Option Nat × DB :=
  if name = "" ∨ sport = "" then (none, db)
  else if entityType = "league" then
    match db.leagues.find? (leagueKeyB name sport) with
    | some L => (some L.leagueId, db)
    | none =>
      (some db.nextLeagueId,
       { db with
         leagues := db.leagues ++ [⟨db.nextLeagueId, name, sport, country, sourceId⟩],
         nextLeagueId := db.nextLeagueId + 1 })
  else
    match db.teams.find? (teamKeyB name sport) with
    | some t => (some t.teamId, db)
    | none =>
      (some db.nextTeamId,
       { db with
         teams := db.teams ++ [⟨db.nextTeamId, name, sport, sourceId⟩],
         nextTeamId := db.nextTeamId + 1 })

/-- Derived winner: lines 174-177 of collect_football_data_org_history.py.
When either score is absent the winner stays None (and the status is left
exactly as the source supplied it; the FINISHED-with-no-scores case only
logs a warning). -/
def computeWinner (hs a : Option Int) : Option String :=
  match hs, a with
  | some h, some aw =>
    if h > aw then some "HOME_TEAM"
    else if aw > h then some "AWAY_TEAM"
    else some "DRAW"
  | _, _ => none

def matchKeyB (sid : String) (m : MatchRow) : Bool :=
  decide (m.sourceMatchId = sid ∧ m.sourceName = sourceNameHist)

def oddsKeyB (mid : Nat) (o : OddsRow) : Bool :=
  decide (o.matchId = mid ∧ o.bookmaker = "football-data.org_API" ∧ o.marketType = "1X2")

/-- Batch counters: (inserted matches, updated matches, inserted odds,
updated odds), the tuple process_and_store_matches returns. -/
structure Counts where
  im : Nat
  um : Nat
  io : Nat
  uo : Nat
deriving DecidableEq, Repr

/-- The odds block of the loop body: compare-then-update-or-insert keyed on
(match_id, bookmaker, market_type); the update also rewrites the
observation timestamp. -/
def processOdds (mid : Nat) (md : ApiMatch) (c : Counts) (db : DB) : Counts × DB :=
  match md.oddsVals with
  | none => (c, db)
  | some (h, d, a) =>
    match db.odds.find? (oddsKeyB mid) with
    | some o =>
      if o.homeOdds ≠ h ∨ o.drawOdds ≠ d ∨ o.awayOdds ≠ a then
        ({ c with uo := c.uo + 1 },
         { db with odds := (replaceFirst (oddsKeyB mid)
             (fun x => { x with
                homeOdds := h, drawOdds := d, awayOdds := a,
                timestampUtc := md.utcDate }) db.odds) })
      else (c, db)
    | none =>
      ({ c with io := c.io + 1 },
       { db with
         odds := db.odds ++ [⟨db.nextOddId, mid, "football-data.org_API", "1X2",
                              h, d, a, md.utcDate⟩],
         nextOddId := db.nextOddId + 1 })

/-- The per-record loop body of process_and_store_matches: resolve both
teams, derive the winner, look the match up by (source_match_id,
source_name), then update (all fields of the field map, mutable and
identity alike) when any of status/home_score/away_score/kickoff differ,
insert when absent, and process the odds side channel. -/
def processOne (leagueId : Nat) (acc : Counts × DB) (md : ApiMatch) : Counts × DB :=
  let (c, db) := acc
  if md.homeTeamName = "" ∨ md.awayTeamName = "" then (c, db)
  else
    let (hid?, db1) := getOrCreateEntityId db "team" md.homeTeamName "football"
      md.homeTeamSourceId none
    let (aid?, db2) := getOrCreateEntityId db1 "team" md.awayTeamName "football"
      md.awayTeamSourceId none
    match hid?, aid? with
    | some hid, some aid =>
      let winner := computeWinner md.ftHome md.ftAway
      let sid := md.sourceMatchId
      match db2.matchRows.find? (matchKeyB sid) with
      | some m =>
        if m.status ≠ md.status ∨ m.homeScore ≠ md.ftHome ∨ m.awayScore ≠ md.ftAway ∨
            m.datetimeUtc ≠ md.utcDate then
          let db3 := { db2 with
            matchRows := (replaceFirst (matchKeyB sid)
              (fun x => { x with
                 leagueId := leagueId, homeTeamId := hid, awayTeamId := aid,
                 datetimeUtc := md.utcDate, status := md.status,
                 homeScore := md.ftHome, awayScore := md.ftAway, winner := winner,
                 stage := md.stage, matchday := md.matchday, isMock := 0 })
              db2.matchRows) }
          processOdds m.matchId md { c with um := c.um + 1 } db3
        else processOdds m.matchId md c db2
      | none =>
        let mid := db2.nextMatchId
        let row : MatchRow := ⟨mid, leagueId, hid, aid, md.utcDate, md.status, md.ftHome,
          md.ftAway, winner, md.stage, md.matchday, 0, sid, sourceNameHist⟩
        let db3 := { db2 with matchRows := db2.matchRows ++ [row], nextMatchId := mid + 1 }
        processOdds mid md { c with im := c.im + 1 } db3
    | _, _ => (c, db2)

/-- Shallow embedding of process_and_store_matches.  `commitOk` is the
outcome of the single end-of-batch conn.commit(): on failure the function
reports (0, 0, 0, 0) instead of the accumulated counters (the returned DB
component is the in-memory connection state; no claim observes the store
after a failed commit). -/
def process_and_store_matches (db : DB) (records : List ApiMatch)
    (leagueName : String) (leagueApiCode : Option String) (country : Option String)
    (commitOk : Bool) : Counts × DB :=
  if records.isEmpty then (⟨0, 0, 0, 0⟩, db)
  else
    match getOrCreateEntityId db "league" leagueName "football" leagueApiCode country with
    | (none, db1) => (⟨0, 0, 0, 0⟩, db1)
    | (some lid, db1) =>
      let (c, db2) := records.foldl (processOne lid) (⟨0, 0, 0, 0⟩, db1)
      if commitOk then (c, db2) else (⟨0, 0, 0, 0⟩, db2)

/-- A record that is a complete no-op against the store: names present, both
teams resolvable by lookup, the match row present by natural key with equal
mutable fields (and an in-range rowid), and, when the record carries odds,
the odds row present with equal prices.  Processing such a record changes
nothing and counts nothing — the skip path of the engine. -/
def NoopRec (db : DB) (r : ApiMatch) : Prop :=
  r.homeTeamName ≠ "" ∧ r.awayTeamName ≠ "" ∧
  (db.teams.find? (teamKeyB r.homeTeamName "football")).isSome ∧
  (db.teams.find? (teamKeyB r.awayTeamName "football")).isSome ∧
  ∃ m, db.matchRows.find? (matchKeyB r.sourceMatchId) = some m ∧
    m.status = r.status ∧ m.homeScore = r.ftHome ∧ m.awayScore = r.ftAway ∧
    m.datetimeUtc = r.utcDate ∧ m.matchId < db.nextMatchId ∧
    (∀ h d a, r.oddsVals = some (h, d, a) → ∃ o,
      db.odds.find? (oddsKeyB m.matchId) = some o ∧
      o.homeOdds = h ∧ o.drawOdds = d ∧ o.awayOdds = a)

/-- The store delta of processing one fresh record: teams possibly extended,
leagues untouched, exactly one appended match row carrying the record's
natural key and the fresh rowid, and an odds-table delta confined to the
fresh match id. -/
def FreshStep (db db' : DB) (sid : String) : Prop :=
  (∃ ts, db'.teams = db.teams ++ ts) ∧
  db'.leagues = db.leagues ∧
  (∃ row : MatchRow, db'.matchRows = db.matchRows ++ [row] ∧
    row.sourceMatchId = sid ∧ row.sourceName = sourceNameHist ∧
    row.matchId = db.nextMatchId) ∧
  db'.nextMatchId = db.nextMatchId + 1 ∧
  (db'.odds = db.odds ∨
   (∃ orow : OddsRow, db'.odds = db.odds ++ [orow] ∧ orow.matchId = db.nextMatchId) ∨
   (∃ h d a ts0, db'.odds = replaceFirst (oddsKeyB db.nextMatchId)
      (fun x => { x with
         homeOdds := h, drawOdds := d, awayOdds := a, timestampUtc := ts0 }) db.odds))

end HistColl

/-! ## database_importer.py: the SQL-level upsert variants and the
status/score derivations of the other ingestion paths. -/

namespace DBImp

/-- A row of the database_importer matches table (database_setup.py schema:
natural key UNIQUE (datetime, home_team_id, away_team_id, source)). -/
structure DIMatchRow where
  matchId : Nat
  datetime : String
  homeTeamId : Nat
  awayTeamId : Nat
  leagueId : Nat
  status : String
  homeScore : Option Int
  awayScore : Option Int
  source : String
  sourceMatchId : String
deriving DecidableEq, Repr

def diKeyB (dt : String) (h a : Nat) (src : String) (m : DIMatchRow) : Bool :=
  decide (m.datetime = dt ∧ m.homeTeamId = h ∧ m.awayTeamId = a ∧ m.source = src)

/-- The Kaggle importer's match write (import_kaggle_international_results,
lines 122-130): INSERT ... ON CONFLICT (datetime, home_team_id,
away_team_id, source) DO NOTHING, with the insert counted only when
cursor.rowcount > 0.  The status is the hardcoded 'FINISHED' and both
scores are present (rows with missing scores were already skipped by the
int() parse).  Returns (rows, next rowid, whether a row was inserted). -/
def kaggleInsertMatch (rows : List DIMatchRow) (nextId : Nat) (dt : String)
    (h a l : Nat) (hs aw : Int) (src sid : String) :
    List DIMatchRow × Nat × Bool :=
  if rows.any (diKeyB dt h a src) then (rows, nextId, false)
  else (rows ++ [⟨nextId, dt, h, a, l, "FINISHED", some hs, some aw, src, sid⟩],
        nextId + 1, true)

/-- TheSportsDB importer's match write (import_thesportsdb_events, lines
435-444): INSERT ... ON CONFLICT (datetime, home_team_id, away_team_id,
source) DO UPDATE SET status, home_score, away_score, source_match_id
(updated_at, a bookkeeping timestamp column, is not modeled).  The natural
key is schema-unique, so the conflict rewrite touches exactly the
conflicting row; league_id is not in the update list.  The Bool is
`cursor.rowcount > 0` (a row is affected on both paths). -/
def tsdbUpsertMatch (rows : List DIMatchRow) (nextId : Nat) (dt : String)
    (h a l : Nat) (st : String) (hs aw : Option Int) (src sid : String) :
    List DIMatchRow × Nat × Bool :=
  if rows.any (diKeyB dt h a src) then
    (rows.map (fun m => if diKeyB dt h a src m then
       { m with status := st, homeScore := hs, awayScore := aw, sourceMatchId := sid }
     else m), nextId, true)
  else (rows ++ [⟨nextId, dt, h, a, l, st, hs, aw, src, sid⟩], nextId + 1, true)

/-- Status/score derivation of import_football_data_org_historical_json
(lines 303-307): scores are read only for a FINISHED record, and a FINISHED
record missing either fullTime score is downgraded to UNKNOWN_SCORE. -/
def fdOrgStatusScores (status : String) (ftHome ftAway : Option Int) :
    String × Option Int × Option Int :=
  if status = "FINISHED" then
    if ftHome.isNone ∨ ftAway.isNone then ("UNKNOWN_SCORE", ftHome, ftAway)
    else ("FINISHED", ftHome, ftAway)
  else (status, none, none)

/-- Status/score derivation of import_thesportsdb_events (lines 415-429).
`statusApi` is the already-uppercased strStatus; `hs`/`aw` the digit-parsed
scores.  A finished status with a missing score becomes AWAITING_SCORES;
postponed-like statuses null the scores; an empty status with any score
present is assumed FINISHED; anything else stays SCHEDULED with nulled
scores. -/
def tsdbStatusScores (statusApi : String) (hs aw : Option Int) :
    String × Option Int × Option Int :=
  if statusApi = "MATCH FINISHED" ∨ statusApi = "FT" ∨ statusApi = "AET" ∨
      statusApi = "PEN" ∨ statusApi = "FINISHED" then
    (if hs.isNone ∨ aw.isNone then "AWAITING_SCORES" else "FINISHED", hs, aw)
  else if statusApi = "POSTPONED" ∨ statusApi = "CANCELLED" ∨ statusApi = "ABANDONED" ∨
      statusApi = "SUSPENDED" then
    ("POSTPONED", none, none)
  else if statusApi = "LIVE" ∨ statusApi = "HT" ∨ statusApi = "BREAK" then
    ("LIVE", hs, aw)
  else if statusApi = "" ∧ (hs.isSome ∨ aw.isSome) then
    ("FINISHED", hs, aw)
  else ("SCHEDULED", none, none)

end DBImp

/-! ## collect_openfootball._get_or_create_entity_id: the resolver variant
with source-id backfill. -/

namespace OpenFoot

open HistColl (DB LeagueRow TeamRow leagueKeyB teamKeyB)

/-- Shallow embedding of collect_openfootball._get_or_create_entity_id.
Lookup by (name, sport); on a hit, a non-empty source id that differs from
the stored one (or was previously null) is written back onto the stored
row (UPDATE ... WHERE pk — the pk is unique, all rows carrying it are
rewritten) and the existing id is returned; on a miss, a fresh row is
inserted.  The `if source_id and ...` truthiness test means an empty
string never triggers the backfill.  The IntegrityError re-fetch branch is
elided (single-writer model). -/
def _get_or_create_entity_id (db : DB) (entityType name sport : String)
    (sourceId : Option String) (country : Option String) : Option Nat × DB :=
  if name = "" ∨ sport = "" then (none, db)
  else if entityType = "league" then
    match db.leagues.find? (leagueKeyB name sport) with
    | some L =>
      let backfill := match sourceId with
        | some s => decide (s ≠ "") && decide (L.sourceLeagueId ≠ some s)
        | none => false
      if backfill then
        (some L.leagueId,
         { db with leagues := db.leagues.map (fun x =>
             if x.leagueId = L.leagueId then { x with sourceLeagueId := sourceId } else x) })
      else (some L.leagueId, db)
    | none =>
      (some db.nextLeagueId,
       { db with
         leagues := db.leagues ++ [⟨db.nextLeagueId, name, sport, country, sourceId⟩],
         nextLeagueId := db.nextLeagueId + 1 })
  else
    match db.teams.find? (teamKeyB name sport) with
    | some t =>
      let backfill := match sourceId with
        | some s => decide (s ≠ "") && decide (t.sourceTeamId ≠ some s)
        | none => false
      if backfill then
        (some t.teamId,
         { db with teams := db.teams.map (fun x =>
             if x.teamId = t.teamId then { x with sourceTeamId := sourceId } else x) })
      else (some t.teamId, db)
    | none =>
      (some db.nextTeamId,
       { db with
         teams := db.teams ++ [⟨db.nextTeamId, name, sport, sourceId⟩],
         nextTeamId := db.nextTeamId + 1 })

end OpenFoot

/-! ## Lemmas about the form analytics engine -/

namespace FormFeat

/-- One classification step, expressed through the outcome predicates. -/
theorem formStep_eq (tid : Int) (acc : FormResult) (r : HistRow) :
    formStep tid acc r =
      ⟨acc.W + (if winB tid r then 1 else 0),
       acc.D + (if drawB tid r then 1 else 0),
       acc.L + (if lossB tid r then 1 else 0),
       acc.games_played - (if corruptB r then 1 else 0)⟩ := by
  unfold formStep winB drawB lossB corruptB
  rcases acc with ⟨w, d, lo, g⟩
  rcases hh : r.homeScore with _ | hs <;> rcases ha : r.awayScore with _ | a <;>
    simp [FormResult.mk.injEq] <;> split_ifs <;> simp_all [FormResult.mk.injEq] <;> omega

/-- The classification fold computes exactly the per-outcome counts, with
`games_played` decremented once per corrupt row. -/
theorem foldl_formStep (tid : Int) (l : List HistRow) (acc : FormResult) :
    l.foldl (formStep tid) acc =
      ⟨acc.W + l.countP (winB tid), acc.D + l.countP (drawB tid),
       acc.L + l.countP (lossB tid), acc.games_played - l.countP corruptB⟩ := by
  induction l generalizing acc with
  | nil => rcases acc with ⟨w, d, lo, g⟩; simp
  | cons r rs ih =>
    rw [List.foldl_cons, formStep_eq, ih, List.countP_cons, List.countP_cons,
      List.countP_cons, List.countP_cons]
    rcases acc with ⟨w, d, lo, g⟩
    simp only [FormResult.mk.injEq]
    refine ⟨?_, ?_, ?_, ?_⟩ <;> split_ifs <;> omega

theorem sortDesc_cons (x : HistRow) (xs : List HistRow) :
    sortDesc (x :: xs) = insertDesc x (sortDesc xs) := rfl

theorem mem_insertDesc {a r : HistRow} {l : List HistRow} :
    a ∈ insertDesc r l ↔ a = r ∨ a ∈ l := by
  induction l with
  | nil => simp [insertDesc]
  | cons x xs ih =>
    unfold insertDesc
    by_cases h : dateOf x < dateOf r <;> simp [h, ih] <;> tauto

theorem mem_sortDesc {a : HistRow} {l : List HistRow} :
    a ∈ sortDesc l ↔ a ∈ l := by
  induction l with
  | nil => simp [sortDesc]
  | cons x xs ih => rw [sortDesc_cons, mem_insertDesc, ih]; simp

/-- The function equals the outcome counts over the selected window (the
eligible rows sorted descending by timestamp, truncated to `numGames`),
with `games_played` the window size minus the number of corrupt rows. -/
theorem get_team_form_features_window (tid d : Int) (hist : List HistRow)
    (n : Nat) (venue : Option String) :
    get_team_form_features (some tid) (some d) hist n venue =
      ⟨(formWindow tid d hist n venue).countP (winB tid),
       (formWindow tid d hist n venue).countP (drawB tid),
       (formWindow tid d hist n venue).countP (lossB tid),
       (formWindow tid d hist n venue).length -
         (formWindow tid d hist n venue).countP corruptB⟩ := by
  unfold get_team_form_features formWindow
  cases hist with
  | nil => simp [zeroForm, sortDesc]
  | cons h t =>
    simp only [List.isEmpty_cons, Bool.false_eq_true, if_false]
    by_cases he : ((h :: t).filter (eligibleB tid d venue)).isEmpty
    · have hnil : (h :: t).filter (eligibleB tid d venue) = [] := by
        simpa [List.isEmpty_iff] using he
      simp [he, hnil, zeroForm, sortDesc]
    · simp only [he, Bool.false_eq_true, if_false]
      by_cases hr : ((sortDesc ((h :: t).filter (eligibleB tid d venue))).take n).length = 0
      · have : (sortDesc ((h :: t).filter (eligibleB tid d venue))).take n = [] :=
          List.length_eq_zero.mp hr
        simp [hr, this, zeroForm]
      · simp only [hr, if_false]
        rw [foldl_formStep]
        simp

/-- Any row of the selected window features the team on the home or away
side (it passed the eligibility filter). -/
theorem side_of_mem_window (tid d : Int) (hist : List HistRow) (n : Nat)
    (venue : Option String) :
    ∀ r ∈ formWindow tid d hist n venue, r.homeTeamId = tid ∨ r.awayTeamId = tid := by
  intro r hr
  unfold formWindow at hr
  have h1 : r ∈ sortDesc (hist.filter (eligibleB tid d venue)) :=
    List.take_subset _ _ hr
  have h2 : r ∈ hist.filter (eligibleB tid d venue) := mem_sortDesc.mp h1
  have h3 := List.of_mem_filter h2
  unfold eligibleB at h3
  simp only [Bool.and_eq_true, Bool.or_eq_true, decide_eq_true_eq] at h3
  exact h3.1.1

/-- A row featuring the team on one side is a win, a draw, a loss or
corrupt, exclusively. -/
theorem outcome_partition (tid : Int) (r : HistRow)
    (hside : r.homeTeamId = tid ∨ r.awayTeamId = tid) :
    (if winB tid r then 1 else 0) + (if drawB tid r then 1 else 0) +
      (if lossB tid r then 1 else 0) + (if corruptB r then 1 else 0) = 1 := by
  unfold winB drawB lossB corruptB
  rcases hh : r.homeScore with _ | hs <;> rcases ha : r.awayScore with _ | a <;>
    simp <;> rcases hside with h | h <;> simp [h] <;> split_ifs <;> simp_all <;> omega

theorem countP_outcomes (tid : Int) (l : List HistRow)
    (hside : ∀ r ∈ l, r.homeTeamId = tid ∨ r.awayTeamId = tid) :
    l.countP (winB tid) + l.countP (drawB tid) + l.countP (lossB tid) +
      l.countP corruptB = l.length := by
  induction l with
  | nil => simp
  | cons r rs ih =>
    simp only [List.countP_cons, List.length_cons]
    have h1 := outcome_partition tid r (hside r (by simp))
    have h2 := ih (fun x hx => hside x (by simp [hx]))
    omega

end FormFeat

/-! ## Claim theorems: form analytics -/

open FormFeat in
/-- C4: team_form considers exactly the eligible history rows (team on
either side, venue-scoped, parseable timestamp strictly before the
cutoff), sorted descending and truncated to window_size, and on the
concrete three-match history for team 10 with cutoff day 4, window 5,
returns wins=2, draws=1, losses=0, games_considered=3 (with the home/away
scoped variants also checked); dropping any ineligible row anywhere in the
history leaves the result unchanged. -/
theorem C4_team_form_window_scenario :
    (get_team_form_features (some 10) (some 4)
       [⟨10, 11, some 2, some 1, some 1⟩, ⟨11, 10, some 1, some 2, some 2⟩,
        ⟨10, 12, some 0, some 0, some 3⟩] 5 none = ⟨2, 1, 0, 3⟩) ∧
    (get_team_form_features (some 10) (some 4)
       [⟨10, 11, some 2, some 1, some 1⟩, ⟨11, 10, some 1, some 2, some 2⟩,
        ⟨10, 12, some 0, some 0, some 3⟩] 5 (some "home") = ⟨1, 1, 0, 2⟩) ∧
    (get_team_form_features (some 10) (some 4)
       [⟨10, 11, some 2, some 1, some 1⟩, ⟨11, 10, some 1, some 2, some 2⟩,
        ⟨10, 12, some 0, some 0, some 3⟩] 5 (some "away") = ⟨1, 0, 0, 1⟩) ∧
    (∀ (tid d : Int) (l1 l2 : List HistRow) (r : HistRow) (n : Nat)
       (venue : Option String), eligibleB tid d venue r = false →
       get_team_form_features (some tid) (some d) (l1 ++ r :: l2) n venue =
         get_team_form_features (some tid) (some d) (l1 ++ l2) n venue) := by
  refine ⟨by decide, by decide, by decide, ?_⟩
  intro tid d l1 l2 r n venue hr
  rw [get_team_form_features_window, get_team_form_features_window]
  have : (l1 ++ r :: l2).filter (eligibleB tid d venue) =
      (l1 ++ l2).filter (eligibleB tid d venue) := by
    simp [List.filter_append, List.filter_cons, hr]
  unfold formWindow
  rw [this]

open FormFeat in
/-- Witness for C4: the ineligible-row conjunct applied at a concrete row
(a match of two unrelated teams) and a concrete history. -/
theorem C4_team_form_window_scenario_witness :
    eligibleB 10 4 none ⟨99, 98, some 1, some 0, some 2⟩ = false ∧
    get_team_form_features (some 10) (some 4)
        ([] ++ ⟨99, 98, some 1, some 0, some 2⟩ ::
          [⟨10, 11, some 2, some 1, some 1⟩]) 5 none =
      get_team_form_features (some 10) (some 4) ([] ++ [⟨10, 11, some 2, some 1, some 1⟩])
        5 none :=
  ⟨by decide, C4_team_form_window_scenario.2.2.2 10 4 [] [⟨10, 11, some 2, some 1, some 1⟩]
    ⟨99, 98, some 1, some 0, some 2⟩ 5 none (by decide)⟩

open FormFeat in
/-- C7: a window row with a missing/non-numeric score contributes to none
of wins/draws/losses and is not counted in games_considered: the result
equals the outcome counts over the window with games_considered equal to
the window length minus the number of corrupt rows (the window itself is
selected before score inspection, so corrupt rows are not substituted by
older ones); concretely, six matches of team 10 with the fourth-day row
corrupt give games_considered=4 out of the five most recent, and the
day-1 loss stays excluded. -/
theorem C7_missing_score_exclusion :
    (∀ (tid d : Int) (hist : List HistRow) (n : Nat) (venue : Option String),
       get_team_form_features (some tid) (some d) hist n venue =
         ⟨(formWindow tid d hist n venue).countP (winB tid),
          (formWindow tid d hist n venue).countP (drawB tid),
          (formWindow tid d hist n venue).countP (lossB tid),
          (formWindow tid d hist n venue).length -
            (formWindow tid d hist n venue).countP corruptB⟩) ∧
    (∀ (tid : Int) (r : HistRow), corruptB r = true →
       winB tid r = false ∧ drawB tid r = false ∧ lossB tid r = false) ∧
    (get_team_form_features (some 10) (some 7)
       [⟨10, 20, some 0, some 5, some 1⟩, ⟨20, 10, some 3, some 1, some 2⟩,
        ⟨10, 20, some 1, some 1, some 3⟩, ⟨10, 20, none, some 1, some 4⟩,
        ⟨20, 10, some 0, some 2, some 5⟩, ⟨10, 20, some 1, some 0, some 6⟩] 5 none =
       ⟨2, 1, 1, 4⟩) := by
  refine ⟨get_team_form_features_window, ?_, by decide⟩
  intro tid r hr
  unfold corruptB at hr
  unfold winB drawB lossB
  rcases hh : r.homeScore with _ | hs <;> rcases ha : r.awayScore with _ | a <;>
    simp_all

open FormFeat in
/-- Witness for C7: the corrupt-row conjunct applied at a concrete row with
a missing home score. -/
theorem C7_missing_score_exclusion_witness :
    corruptB ⟨10, 20, none, some 1, some 4⟩ = true ∧
    (winB 10 ⟨10, 20, none, some 1, some 4⟩ = false ∧
     drawB 10 ⟨10, 20, none, some 1, some 4⟩ = false ∧
     lossB 10 ⟨10, 20, none, some 1, some 4⟩ = false) :=
  ⟨by decide, C7_missing_score_exclusion.2.1 10 ⟨10, 20, none, some 1, some 4⟩ (by decide)⟩

open FormFeat in
/-- C8: a null team id, a null/unparseable cutoff timestamp, or an empty
history each yield the all-zero form result (the function is total: the
ValueError of the timestamp parse and the None checks all land on the
default dictionary). -/
theorem C8_team_form_invalid_inputs :
    (∀ (d : Option Int) (hist : List HistRow) (n : Nat) (v : Option String),
       get_team_form_features none d hist n v = zeroForm) ∧
    (∀ (t : Option Int) (hist : List HistRow) (n : Nat) (v : Option String),
       get_team_form_features t none hist n v = zeroForm) ∧
    (∀ (t d : Option Int) (n : Nat) (v : Option String),
       get_team_form_features t d [] n v = zeroForm) := by
  refine ⟨?_, ?_, ?_⟩
  · intro d hist n v; cases d <;> rfl
  · intro t hist n v; cases t <;> rfl
  · intro t d n v; cases t <;> cases d <;> rfl

open FormFeat in
/-- C10: every form result satisfies wins + draws + losses =
games_considered, and games_considered never exceeds the window size
(non-negativity is inherent to the Nat-valued counters, which mirror the
loop's never-negative Python counters). -/
theorem C10_team_form_counts_invariant (teamId matchDate : Option Int)
    (hist : List HistRow) (n : Nat) (venue : Option String) :
    (get_team_form_features teamId matchDate hist n venue).W +
        (get_team_form_features teamId matchDate hist n venue).D +
        (get_team_form_features teamId matchDate hist n venue).L =
      (get_team_form_features teamId matchDate hist n venue).games_played ∧
    (get_team_form_features teamId matchDate hist n venue).games_played ≤ n := by
  rcases teamId with _ | tid
  · cases matchDate <;> simp [get_team_form_features, zeroForm]
  rcases matchDate with _ | d
  · simp [get_team_form_features, zeroForm]
  rw [get_team_form_features_window]
  dsimp only
  have hside := side_of_mem_window tid d hist n venue
  have hpart := countP_outcomes tid (formWindow tid d hist n venue) hside
  have hcorr : (formWindow tid d hist n venue).countP corruptB ≤
      (formWindow tid d hist n venue).length := List.countP_le_length _
  have hlen : (formWindow tid d hist n venue).length ≤ n := by
    unfold formWindow
    rw [List.length_take]
    exact min_le_left _ _
  exact ⟨by omega, by omega⟩

/-! ## Lemmas about the upsert engine -/

namespace HistColl

theorem find?_append_none {α : Type} {p : α → Bool} {l1 : List α} (l2 : List α)
    (h : l1.find? p = none) : (l1 ++ l2).find? p = l2.find? p := by
  induction l1 with
  | nil => rfl
  | cons x xs ih =>
    by_cases hx : p x
    · rw [List.find?_cons_of_pos _ hx] at h; exact absurd h (by simp)
    · rw [List.find?_cons_of_neg _ hx] at h
      rw [List.cons_append, List.find?_cons_of_neg _ hx]
      exact ih h

theorem find?_append_some {α : Type} {p : α → Bool} {l1 : List α} {a : α} (l2 : List α)
    (h : l1.find? p = some a) : (l1 ++ l2).find? p = some a := by
  induction l1 with
  | nil => simp at h
  | cons x xs ih =>
    by_cases hx : p x
    · rw [List.find?_cons_of_pos _ hx] at h
      rw [List.cons_append, List.find?_cons_of_pos _ hx]
      exact h
    · rw [List.find?_cons_of_neg _ hx] at h
      rw [List.cons_append, List.find?_cons_of_neg _ hx]
      exact ih h

theorem length_replaceFirst {α : Type} (p : α → Bool) (f : α → α) (l : List α) :
    (replaceFirst p f l).length = l.length := by
  induction l with
  | nil => rfl
  | cons x xs ih => unfold replaceFirst; by_cases hx : p x <;> simp [hx, ih]

/-- Rewriting the first `p`-row does not disturb a `q`-keyed lookup when the
two keys exclude each other and the rewrite preserves key fields. -/
theorem find?_replaceFirst_disjoint {α : Type} {p q : α → Bool} {f : α → α}
    (l : List α) (hqp : ∀ x, q x = true → p x = false)
    (hpf : ∀ x, p x = true → q (f x) = false) :
    (replaceFirst p f l).find? q = l.find? q := by
  induction l with
  | nil => rfl
  | cons x xs ih =>
    unfold replaceFirst
    by_cases hx : p x
    · have hqx : q x = false := by
        by_cases hq : q x
        · exact absurd (hqp x hq) (by simp [hx])
        · simpa using hq
      simp only [hx, if_true]
      rw [List.find?_cons_of_neg _ (by simp [hpf x hx]),
          List.find?_cons_of_neg _ (by simp [hqx])]
    · have hxf : p x = false := by simpa using hx
      simp only [hxf, Bool.false_eq_true, if_false]
      by_cases hq : q x
      · rw [List.find?_cons_of_pos _ hq, List.find?_cons_of_pos _ hq]
      · rw [List.find?_cons_of_neg _ hq, List.find?_cons_of_neg _ hq]
        exact ih

theorem find?_replaceFirst_found {α : Type} {p : α → Bool} {f : α → α}
    {l : List α} {a : α} (h : l.find? p = some a) (hf : p (f a) = true) :
    (replaceFirst p f l).find? p = some (f a) := by
  induction l with
  | nil => simp at h
  | cons x xs ih =>
    unfold replaceFirst
    by_cases hx : p x
    · rw [List.find?_cons_of_pos _ hx] at h
      injection h with h
      subst h
      simp only [hx, if_true]
      rw [List.find?_cons_of_pos _ hf]
    · rw [List.find?_cons_of_neg _ hx] at h
      have hxf : p x = false := by simpa using hx
      simp only [hxf, Bool.false_eq_true, if_false]
      rw [List.find?_cons_of_neg _ hx]
      exact ih h

theorem resolve_team_found {db : DB} {name : String} {t : TeamRow}
    (sid c : Option String) (hn : name ≠ "")
    (hf : db.teams.find? (teamKeyB name "football") = some t) :
    getOrCreateEntityId db "team" name "football" sid c = (some t.teamId, db) := by
  unfold getOrCreateEntityId
  rw [if_neg (by simp [hn]), if_neg (by decide), hf]

theorem resolve_team_new {db : DB} {name : String} (sid c : Option String)
    (hn : name ≠ "") (hf : db.teams.find? (teamKeyB name "football") = none) :
    getOrCreateEntityId db "team" name "football" sid c =
      (some db.nextTeamId,
       { db with teams := db.teams ++ [⟨db.nextTeamId, name, "football", sid⟩],
                 nextTeamId := db.nextTeamId + 1 }) := by
  unfold getOrCreateEntityId
  rw [if_neg (by simp [hn]), if_neg (by decide), hf]

theorem resolve_league_found {db : DB} {name : String} {L : LeagueRow}
    (sid c : Option String) (hn : name ≠ "")
    (hf : db.leagues.find? (leagueKeyB name "football") = some L) :
    getOrCreateEntityId db "league" name "football" sid c = (some L.leagueId, db) := by
  unfold getOrCreateEntityId
  rw [if_neg (by simp [hn]), if_pos rfl, hf]

theorem resolve_league_new {db : DB} {name : String} (sid c : Option String)
    (hn : name ≠ "") (hf : db.leagues.find? (leagueKeyB name "football") = none) :
    getOrCreateEntityId db "league" name "football" sid c =
      (some db.nextLeagueId,
       { db with
         leagues := db.leagues ++ [⟨db.nextLeagueId, name, "football", c, sid⟩],
         nextLeagueId := db.nextLeagueId + 1 }) := by
  unfold getOrCreateEntityId
  rw [if_neg (by simp [hn]), if_pos rfl, hf]

/-- Team resolution with a non-empty name always succeeds, only ever appends
team rows, leaves every other table and counter unchanged, and leaves the
team present. -/
theorem resolve_team_post (db : DB) (name : String) (sid c : Option String)
    (hn : name ≠ "") :
    ∃ hid db', getOrCreateEntityId db "team" name "football" sid c = (some hid, db') ∧
      (db'.teams.find? (teamKeyB name "football")).isSome ∧
      (∃ ts, db'.teams = db.teams ++ ts) ∧
      db'.leagues = db.leagues ∧ db'.matchRows = db.matchRows ∧ db'.odds = db.odds ∧
      db'.nextMatchId = db.nextMatchId ∧ db'.nextOddId = db.nextOddId := by
  cases hf : db.teams.find? (teamKeyB name "football") with
  | some t =>
    refine ⟨t.teamId, db, resolve_team_found sid c hn hf, ?_, ⟨[], by simp⟩,
      rfl, rfl, rfl, rfl, rfl⟩
    rw [hf]; rfl
  | none =>
    refine ⟨db.nextTeamId, _, resolve_team_new sid c hn hf, ?_,
      ⟨[⟨db.nextTeamId, name, "football", sid⟩], rfl⟩, rfl, rfl, rfl, rfl, rfl⟩
    rw [find?_append_none _ hf]
    simp [teamKeyB]

/-- League resolution with a non-empty name succeeds and touches nothing but
the leagues table, leaving the league present. -/
theorem resolve_league_post (db : DB) (name : String) (sid c : Option String)
    (hn : name ≠ "") :
    ∃ lid db', getOrCreateEntityId db "league" name "football" sid c = (some lid, db') ∧
      (db'.leagues.find? (leagueKeyB name "football")).isSome ∧
      db'.teams = db.teams ∧ db'.matchRows = db.matchRows ∧ db'.odds = db.odds ∧
      db'.nextMatchId = db.nextMatchId := by
  cases hf : db.leagues.find? (leagueKeyB name "football") with
  | some L =>
    refine ⟨L.leagueId, db, resolve_league_found sid c hn hf, ?_, rfl, rfl, rfl, rfl⟩
    rw [hf]; rfl
  | none =>
    refine ⟨db.nextLeagueId, _, resolve_league_new sid c hn hf, ?_, rfl, rfl, rfl, rfl⟩
    rw [find?_append_none _ hf]
    simp [leagueKeyB]

theorem isSome_find?_append {α : Type} {p : α → Bool} {l1 : List α} (l2 : List α)
    (h : (l1.find? p).isSome) : ((l1 ++ l2).find? p).isSome := by
  obtain ⟨a, ha⟩ := Option.isSome_iff_exists.mp h
  rw [find?_append_some l2 ha]; rfl

/-- The odds block is the identity on counters and store when the record's
odds are absent or already stored with equal prices. -/
theorem processOdds_noop {db : DB} {r : ApiMatch} {mid : Nat} (c : Counts)
    (hodds : ∀ h d a, r.oddsVals = some (h, d, a) → ∃ o,
      db.odds.find? (oddsKeyB mid) = some o ∧
      o.homeOdds = h ∧ o.drawOdds = d ∧ o.awayOdds = a) :
    processOdds mid r c db = (c, db) := by
  unfold processOdds
  cases hov : r.oddsVals with
  | none => rfl
  | some v =>
    obtain ⟨h, d, a⟩ := v
    obtain ⟨o, ho, h1, h2, h3⟩ := hodds h d a hov
    dsimp only
    rw [ho]
    dsimp only
    rw [if_neg (by simp [h1, h2, h3])]

/-- Processing a no-op record changes neither the counters nor the store. -/
theorem processOne_noop {db : DB} {r : ApiMatch} (lid : Nat) (c : Counts)
    (h : NoopRec db r) : processOne lid (c, db) r = (c, db) := by
  obtain ⟨hhn, han, hht, hat, m, hfm, hst, hhs, has, hdt, _hmid, hodds⟩ := h
  obtain ⟨th, hth⟩ := Option.isSome_iff_exists.mp hht
  obtain ⟨ta, hta⟩ := Option.isSome_iff_exists.mp hat
  unfold processOne
  dsimp only
  rw [if_neg (by simp [hhn, han])]
  rw [resolve_team_found r.homeTeamSourceId none hhn hth]
  dsimp only
  rw [resolve_team_found r.awayTeamSourceId none han hta]
  dsimp only
  rw [hfm]
  dsimp only
  rw [if_neg (by simp [hst, hhs, has, hdt])]
  exact processOdds_noop c hodds

/-- A batch of no-op records folds to the unchanged accumulator. -/
theorem foldl_noop (lid : Nat) (rs : List ApiMatch) (c : Counts) (db : DB)
    (h : ∀ r ∈ rs, NoopRec db r) :
    rs.foldl (processOne lid) (c, db) = (c, db) := by
  induction rs with
  | nil => rfl
  | cons r rs ih =>
    rw [List.foldl_cons, processOne_noop lid c (h r (by simp))]
    exact ih (fun x hx => h x (by simp [hx]))

/-- Full characterisation of the odds block: counters other than the odds
counters unchanged, store changes confined to the odds table and keyed to
`mid`, and afterwards the first odds row under the key carries the record's
prices whenever the record has any. -/
theorem processOdds_spec (mid : Nat) (r : ApiMatch) (c : Counts) (db : DB) :
    ∃ c' db', processOdds mid r c db = (c', db') ∧
      c'.im = c.im ∧ c'.um = c.um ∧
      db'.teams = db.teams ∧ db'.leagues = db.leagues ∧
      db'.matchRows = db.matchRows ∧ db'.nextMatchId = db.nextMatchId ∧
      (db'.odds = db.odds ∨
       (∃ orow : OddsRow, db'.odds = db.odds ++ [orow] ∧ orow.matchId = mid) ∨
       (∃ h d a ts0, db'.odds = replaceFirst (oddsKeyB mid)
          (fun x => { x with
             homeOdds := h, drawOdds := d, awayOdds := a, timestampUtc := ts0 }) db.odds)) ∧
      (∀ h d a, r.oddsVals = some (h, d, a) → ∃ o,
        db'.odds.find? (oddsKeyB mid) = some o ∧
        o.homeOdds = h ∧ o.drawOdds = d ∧ o.awayOdds = a) := by
  unfold processOdds
  cases hov : r.oddsVals with
  | none =>
    refine ⟨c, db, rfl, rfl, rfl, rfl, rfl, rfl, rfl, Or.inl rfl, ?_⟩
    intro h d a heq
    simp at heq
  | some v =>
    obtain ⟨h, d, a⟩ := v
    dsimp only
    cases hfo : db.odds.find? (oddsKeyB mid) with
    | some o =>
      dsimp only
      by_cases hdiff : o.homeOdds ≠ h ∨ o.drawOdds ≠ d ∨ o.awayOdds ≠ a
      · rw [if_pos hdiff]
        refine ⟨_, _, rfl, rfl, rfl, rfl, rfl, rfl, rfl,
          Or.inr (Or.inr ⟨h, d, a, r.utcDate, rfl⟩), ?_⟩
        intro h' d' a' heq
        simp only [Option.some.injEq, Prod.mk.injEq] at heq
        obtain ⟨rfl, rfl, rfl⟩ := heq
        have hkey : oddsKeyB mid ({ o with
            homeOdds := h, drawOdds := d, awayOdds := a,
            timestampUtc := r.utcDate } : OddsRow) = true := by
          have := List.find?_some hfo
          simpa [oddsKeyB] using this
        exact ⟨_, find?_replaceFirst_found hfo hkey, rfl, rfl, rfl⟩
      · rw [if_neg hdiff]
        push_neg at hdiff
        refine ⟨c, db, rfl, rfl, rfl, rfl, rfl, rfl, rfl, Or.inl rfl, ?_⟩
        intro h' d' a' heq
        simp only [Option.some.injEq, Prod.mk.injEq] at heq
        obtain ⟨rfl, rfl, rfl⟩ := heq
        exact ⟨o, hfo, hdiff.1, hdiff.2.1, hdiff.2.2⟩
    | none =>
      dsimp only
      refine ⟨_, _, rfl, rfl, rfl, rfl, rfl, rfl, rfl,
        Or.inr (Or.inl ⟨_, rfl, rfl⟩), ?_⟩
      intro h' d' a' heq
      simp only [Option.some.injEq, Prod.mk.injEq] at heq
      obtain ⟨rfl, rfl, rfl⟩ := heq
      refine ⟨⟨db.nextOddId, mid, "football-data.org_API", "1X2", h, d, a, r.utcDate⟩,
        ?_, rfl, rfl, rfl⟩
      rw [show ({ db with
          odds := db.odds ++ [⟨db.nextOddId, mid, "football-data.org_API", "1X2",
            h, d, a, r.utcDate⟩],
          nextOddId := db.nextOddId + 1 } : DB).odds = db.odds ++
            [⟨db.nextOddId, mid, "football-data.org_API", "1X2", h, d, a, r.utcDate⟩]
        from rfl]
      rw [find?_append_none _ hfo]
      simp [oddsKeyB]

/-- Processing a fresh, well-named record inserts exactly one match row,
counts one insertion and no update, and leaves the record a no-op against
the resulting store. -/
theorem processOne_fresh (lid : Nat) (c : Counts) {db : DB} {r : ApiMatch}
    (hhn : r.homeTeamName ≠ "") (han : r.awayTeamName ≠ "")
    (hfresh : db.matchRows.find? (matchKeyB r.sourceMatchId) = none) :
    ∃ c' db', processOne lid (c, db) r = (c', db') ∧
      c'.im = c.im + 1 ∧ c'.um = c.um ∧
      FreshStep db db' r.sourceMatchId ∧ NoopRec db' r ∧
      (∃ hid aid, db'.matchRows = db.matchRows ++
        [⟨db.nextMatchId, lid, hid, aid, r.utcDate, r.status, r.ftHome, r.ftAway,
          computeWinner r.ftHome r.ftAway, r.stage, r.matchday, 0,
          r.sourceMatchId, sourceNameHist⟩]) := by
  obtain ⟨hid, dbA, e1, hsomeA, ⟨ts1, hts1⟩, hlgA, hmA, hoA, hnmA, hnoA⟩ :=
    resolve_team_post db r.homeTeamName r.homeTeamSourceId none hhn
  obtain ⟨aid, dbB, e2, hsomeB, ⟨ts2, hts2⟩, hlgB, hmB, hoB, hnmB, hnoB⟩ :=
    resolve_team_post dbA r.awayTeamName r.awayTeamSourceId none han
  have hsomeA2 : (dbB.teams.find? (teamKeyB r.homeTeamName "football")).isSome := by
    rw [hts2]; exact isSome_find?_append _ hsomeA
  have hfreshB : dbB.matchRows.find? (matchKeyB r.sourceMatchId) = none := by
    rw [hmB, hmA]; exact hfresh
  have hnmBA : dbB.nextMatchId = db.nextMatchId := by rw [hnmB, hnmA]
  obtain ⟨c', db', hPO, him, hum, hteams', hlg', hm', hnm', hoddsDelta, hoddsFind⟩ :=
    processOdds_spec dbB.nextMatchId r { c with im := c.im + 1 }
      { dbB with
        matchRows := dbB.matchRows ++
          [⟨dbB.nextMatchId, lid, hid, aid, r.utcDate, r.status, r.ftHome, r.ftAway,
            computeWinner r.ftHome r.ftAway, r.stage, r.matchday, 0,
            r.sourceMatchId, sourceNameHist⟩],
        nextMatchId := dbB.nextMatchId + 1 }
  have hrun : processOne lid (c, db) r = (c', db') := by
    unfold processOne
    dsimp only
    rw [if_neg (by simp [hhn, han]), e1]
    dsimp only
    rw [e2]
    dsimp only
    rw [hfreshB]
    dsimp only
    exact hPO
  have hmatches : db'.matchRows = db.matchRows ++
      [⟨dbB.nextMatchId, lid, hid, aid, r.utcDate, r.status, r.ftHome, r.ftAway,
        computeWinner r.ftHome r.ftAway, r.stage, r.matchday, 0,
        r.sourceMatchId, sourceNameHist⟩] := by
    rw [hm']
    show dbB.matchRows ++ _ = db.matchRows ++ _
    rw [hmB, hmA]
  have hoddsB : ({ dbB with
      matchRows := dbB.matchRows ++
        [⟨dbB.nextMatchId, lid, hid, aid, r.utcDate, r.status, r.ftHome, r.ftAway,
          computeWinner r.ftHome r.ftAway, r.stage, r.matchday, 0,
          r.sourceMatchId, sourceNameHist⟩],
      nextMatchId := dbB.nextMatchId + 1 } : DB).odds = db.odds := by
    show dbB.odds = db.odds
    rw [hoB, hoA]
  refine ⟨c', db', hrun, him, hum, ⟨⟨ts1 ++ ts2, ?_⟩, ?_, ?_, ?_, ?_⟩, ?_,
    ⟨hid, aid, by rw [hnmBA] at hmatches; exact hmatches⟩⟩
  · rw [hteams']
    show dbB.teams = db.teams ++ (ts1 ++ ts2)
    rw [hts2, hts1, List.append_assoc]
  · rw [hlg']
    show dbB.leagues = db.leagues
    rw [hlgB, hlgA]
  · exact ⟨_, hmatches, rfl, rfl, hnmBA⟩
  · rw [hnm']
    show dbB.nextMatchId + 1 = db.nextMatchId + 1
    rw [hnmBA]
  · rw [hoddsB, hnmBA] at hoddsDelta
    exact hoddsDelta
  · refine ⟨hhn, han, ?_, ?_,
      ⟨dbB.nextMatchId, lid, hid, aid, r.utcDate, r.status, r.ftHome, r.ftAway,
        computeWinner r.ftHome r.ftAway, r.stage, r.matchday, 0,
        r.sourceMatchId, sourceNameHist⟩, ?_, rfl, rfl, rfl, rfl, ?_, ?_⟩
    · rw [hteams']
      show (dbB.teams.find? (teamKeyB r.homeTeamName "football")).isSome
      exact hsomeA2
    · rw [hteams']
      show (dbB.teams.find? (teamKeyB r.awayTeamName "football")).isSome
      exact hsomeB
    · rw [hmatches, find?_append_none _ hfresh]
      rw [List.find?_cons_of_pos _ (by simp [matchKeyB])]
    · rw [hnm']
      show dbB.nextMatchId < dbB.nextMatchId + 1
      omega
    · exact hoddsFind

/-- A no-op record stays a no-op across the processing of a fresh record
with a different natural key. -/
theorem noop_preserved {db db' : DB} {r0 : ApiMatch} {sid : String}
    (h : NoopRec db r0) (hstep : FreshStep db db' sid)
    (hne : sid ≠ r0.sourceMatchId) : NoopRec db' r0 := by
  obtain ⟨hhn, han, hht, hat, m, hfm, hst, hhs, has, hdt, hmid, hodds⟩ := h
  obtain ⟨⟨ts, hts⟩, hlg, ⟨row, hmr, hrsid, hrsrc, hrid⟩, hnm, hoddsd⟩ := hstep
  refine ⟨hhn, han, ?_, ?_, m, ?_, hst, hhs, has, hdt, ?_, ?_⟩
  · rw [hts]; exact isSome_find?_append _ hht
  · rw [hts]; exact isSome_find?_append _ hat
  · rw [hmr]; exact find?_append_some _ hfm
  · rw [hnm]; omega
  · intro h d a hov
    obtain ⟨o, ho, h1, h2, h3⟩ := hodds h d a hov
    refine ⟨o, ?_, h1, h2, h3⟩
    rcases hoddsd with heq | ⟨orow, horow, _⟩ | ⟨h4, d4, a4, ts4, hrepl⟩
    · rw [heq]; exact ho
    · rw [horow]; exact find?_append_some _ ho
    · rw [hrepl, find?_replaceFirst_disjoint]
      · exact ho
      · intro x hx
        simp only [oddsKeyB, decide_eq_true_eq] at hx
        simp only [oddsKeyB, decide_eq_false_iff_not]
        rintro ⟨hxm, -, -⟩
        omega
      · intro x hx
        simp only [oddsKeyB, decide_eq_true_eq] at hx
        simp only [oddsKeyB, decide_eq_false_iff_not]
        rintro ⟨hxm, -, -⟩
        rw [show ({ x with
            homeOdds := h4, drawOdds := d4, awayOdds := a4,
            timestampUtc := ts4 } : OddsRow).matchId = x.matchId from rfl] at hxm
        omega

/-- Folding a batch of fresh, well-named, pairwise-distinct records from any
accumulator: every record is inserted exactly once and none is updated, the
match table grows by the batch size, the leagues table is untouched, and
afterwards every batch record — as well as every record that already was a
no-op — is a no-op against the final store. -/
theorem foldl_fresh (lid : Nat) (rs : List ApiMatch) (c : Counts) (db : DB)
    (hn : ∀ r ∈ rs, r.homeTeamName ≠ "" ∧ r.awayTeamName ≠ "")
    (hf : ∀ r ∈ rs, db.matchRows.find? (matchKeyB r.sourceMatchId) = none)
    (hd : rs.Pairwise (fun r1 r2 => r1.sourceMatchId ≠ r2.sourceMatchId)) :
    (rs.foldl (processOne lid) (c, db)).1.im = c.im + rs.length ∧
    (rs.foldl (processOne lid) (c, db)).1.um = c.um ∧
    (rs.foldl (processOne lid) (c, db)).2.matchRows.length
      = db.matchRows.length + rs.length ∧
    (rs.foldl (processOne lid) (c, db)).2.leagues = db.leagues ∧
    (∀ r ∈ rs, NoopRec (rs.foldl (processOne lid) (c, db)).2 r) ∧
    (∀ r0, NoopRec db r0 → NoopRec (rs.foldl (processOne lid) (c, db)).2 r0) := by
  induction rs generalizing c db with
  | nil => simp
  | cons r rs ih =>
    obtain ⟨hn1, hn2⟩ := hn r (by simp)
    have hfr := hf r (by simp)
    obtain ⟨c2, db2, hstep, him, hum, hFS, hNoop, -⟩ := processOne_fresh lid c hn1 hn2 hfr
    have hd' := List.pairwise_cons.mp hd
    have hFSm := hFS
    obtain ⟨-, -, ⟨row, hmr, hrsid, hrsrc, -⟩, -, -⟩ := hFSm
    have hf2 : ∀ x ∈ rs, db2.matchRows.find? (matchKeyB x.sourceMatchId) = none := by
      intro x hx
      rw [hmr, find?_append_none _ (hf x (by simp [hx]))]
      have hrk : matchKeyB x.sourceMatchId row = false := by
        simp only [matchKeyB, decide_eq_false_iff_not]
        rintro ⟨hco, -⟩
        exact hd'.1 x hx (by rw [← hrsid, hco])
      rw [List.find?_cons_of_neg _ (by simp [hrk])]
      rfl
    have IH := ih c2 db2 (fun x hx => hn x (by simp [hx])) hf2 hd'.2
    rw [List.foldl_cons, hstep]
    obtain ⟨ih1, ih2, ih3, ih4, ih5, ih6⟩ := IH
    have hlen2 : db2.matchRows.length = db.matchRows.length + 1 := by
      rw [hmr]; simp
    refine ⟨by rw [ih1, him, List.length_cons]; omega, by rw [ih2, hum],
      by rw [ih3, hlen2, List.length_cons]; omega,
      by rw [ih4]
         obtain ⟨-, hlg2, -, -, -⟩ := hFS
         exact hlg2, ?_, ?_⟩
    · intro x hx
      rcases List.mem_cons.mp hx with rfl | hx'
      · exact ih6 x hNoop
      · exact ih5 x hx'
    · intro r0 h0
      have hne : r.sourceMatchId ≠ r0.sourceMatchId := by
        intro hco
        obtain ⟨-, -, -, -, m0, hm0, -⟩ := h0
        rw [show matchKeyB r.sourceMatchId = matchKeyB r0.sourceMatchId from by
          rw [hco]] at hfr
        rw [hfr] at hm0
        cases hm0
      exact ih6 r0 (noop_preserved h0 hFS hne)

end HistColl

/-! ## Claim theorems: upsert engine -/

open HistColl in
/-- C1: re-running process_and_store_matches over an unchanged batch of
well-formed records (non-empty team names, natural keys not yet in the
store, pairwise-distinct keys): the first run reports inserted = N and
updated = 0 and grows the match table by N; the second run reports all-zero
counters — every record takes the silent skip path (updated = 0, so the N
records are all skipped) — and leaves the store bit-for-bit identical, so
the match row count after the second run equals the count after the first.
The Kaggle importer's ON CONFLICT DO NOTHING insert is likewise idempotent:
re-running it immediately after itself changes nothing and counts nothing. -/
theorem C1_upsert_idempotent (db : HistColl.DB) (records : List HistColl.ApiMatch)
    (leagueName : String) (leagueApiCode country : Option String)
    (hln : leagueName ≠ "")
    (hn : ∀ r ∈ records, r.homeTeamName ≠ "" ∧ r.awayTeamName ≠ "")
    (hf : ∀ r ∈ records,
      db.matchRows.find? (matchKeyB r.sourceMatchId) = none)
    (hd : records.Pairwise (fun r1 r2 => r1.sourceMatchId ≠ r2.sourceMatchId)) :
    ((process_and_store_matches db records leagueName leagueApiCode country true).1.im
        = records.length ∧
     (process_and_store_matches db records leagueName leagueApiCode country true).1.um
        = 0 ∧
     (process_and_store_matches db records leagueName leagueApiCode
         country true).2.matchRows.length = db.matchRows.length + records.length ∧
     process_and_store_matches
         (process_and_store_matches db records leagueName leagueApiCode country true).2
         records leagueName leagueApiCode country true =
       (⟨0, 0, 0, 0⟩,
        (process_and_store_matches db records leagueName leagueApiCode
          country true).2)) ∧
    (∀ (rows : List DBImp.DIMatchRow) (nextId : Nat) (dt : String) (h a l : Nat)
       (hs aw : Int) (src sid : String),
       DBImp.kaggleInsertMatch
           (DBImp.kaggleInsertMatch rows nextId dt h a l hs aw src sid).1
           (DBImp.kaggleInsertMatch rows nextId dt h a l hs aw src sid).2.1
           dt h a l hs aw src sid =
         ((DBImp.kaggleInsertMatch rows nextId dt h a l hs aw src sid).1,
          (DBImp.kaggleInsertMatch rows nextId dt h a l hs aw src sid).2.1, false)) := by
  constructor
  · cases records with
    | nil => exact ⟨rfl, rfl, by simp [process_and_store_matches], rfl⟩
    | cons r rs =>
      obtain ⟨lid, dbL, eL, hLsome, hLteams, hLmatches, hLodds, hLnm⟩ :=
        resolve_league_post db leagueName leagueApiCode country hln
      have hrun1 : process_and_store_matches db (r :: rs) leagueName leagueApiCode
          country true = (r :: rs).foldl (processOne lid) (⟨0, 0, 0, 0⟩, dbL) := by
        unfold process_and_store_matches
        rw [if_neg (by simp), eL]
        rfl
      have hfL : ∀ x ∈ r :: rs,
          dbL.matchRows.find? (matchKeyB x.sourceMatchId) = none := by
        intro x hx; rw [hLmatches]; exact hf x hx
      obtain ⟨h1, h2, h3, h4, h5, h6⟩ := foldl_fresh lid (r :: rs) ⟨0, 0, 0, 0⟩ dbL hn hfL hd
      have hrun2 : process_and_store_matches
          ((r :: rs).foldl (processOne lid) (⟨0, 0, 0, 0⟩, dbL)).2 (r :: rs)
          leagueName leagueApiCode country true =
          (⟨0, 0, 0, 0⟩, ((r :: rs).foldl (processOne lid) (⟨0, 0, 0, 0⟩, dbL)).2) := by
        have hsome2 : ((((r :: rs).foldl (processOne lid)
            (⟨0, 0, 0, 0⟩, dbL)).2).leagues.find?
              (leagueKeyB leagueName "football")).isSome := by
          rw [h4]; exact hLsome
        obtain ⟨L, hL⟩ := Option.isSome_iff_exists.mp hsome2
        unfold process_and_store_matches
        rw [if_neg (by simp), resolve_league_found leagueApiCode country hln hL]
        dsimp only
        rw [foldl_noop L.leagueId (r :: rs) ⟨0, 0, 0, 0⟩ _ h5]
        rfl
      refine ⟨?_, ?_, ?_, ?_⟩
      · rw [hrun1, h1]; simp
      · rw [hrun1, h2]
      · rw [hrun1, h3, hLmatches]
      · rw [hrun1, hrun2]
  · intro rows nextId dt h a l hs aw src sid
    unfold DBImp.kaggleInsertMatch
    by_cases hc : rows.any (DBImp.diKeyB dt h a src)
    · rw [if_pos hc]
      dsimp only
      rw [if_pos hc]
    · rw [if_neg hc]
      dsimp only
      rw [if_pos (by rw [List.any_append]; simp [DBImp.diKeyB])]

open HistColl in
/-- Witness for C1: a one-record batch into an empty store; the second run
returns all-zero counters and the untouched store. -/
theorem C1_upsert_idempotent_witness :
    process_and_store_matches
        (process_and_store_matches ⟨[], [], [], [], 1, 1, 1, 1⟩
          [⟨"Team A", some "10", "Team B", some "11", some "2023-01-01T15:00:00Z",
            some "FINISHED", some 2, some 1, some "REGULAR_SEASON", some 1, "123",
            none⟩] "Premier League" (some "PL") (some "England") true).2
        [⟨"Team A", some "10", "Team B", some "11", some "2023-01-01T15:00:00Z",
          some "FINISHED", some 2, some 1, some "REGULAR_SEASON", some 1, "123",
          none⟩] "Premier League" (some "PL") (some "England") true =
      (⟨0, 0, 0, 0⟩,
       (process_and_store_matches ⟨[], [], [], [], 1, 1, 1, 1⟩
          [⟨"Team A", some "10", "Team B", some "11", some "2023-01-01T15:00:00Z",
            some "FINISHED", some 2, some 1, some "REGULAR_SEASON", some 1, "123",
            none⟩] "Premier League" (some "PL") (some "England") true).2) :=
  (C1_upsert_idempotent ⟨[], [], [], [], 1, 1, 1, 1⟩
    [⟨"Team A", some "10", "Team B", some "11", some "2023-01-01T15:00:00Z",
      some "FINISHED", some 2, some 1, some "REGULAR_SEASON", some 1, "123", none⟩]
    "Premier League" (some "PL") (some "England") (by decide) (by decide) (by decide)
    (by decide)).1.2.2.2

namespace HistColl

/-- The update path of the loop body: an existing row found by natural key
with any of status/home_score/away_score/kickoff differing is rewritten in
place with the full field map — the incoming record's resolved league and
team references included — counting one update and no insertion and leaving
the match count unchanged; the row keeps its rowid, source_match_id and
source_name. -/
theorem processOne_update (lid : Nat) (c : Counts) {db : DB} {r : ApiMatch}
    {m : MatchRow}
    (hhn : r.homeTeamName ≠ "") (han : r.awayTeamName ≠ "")
    (hfm : db.matchRows.find? (matchKeyB r.sourceMatchId) = some m)
    (hdiff : m.status ≠ r.status ∨ m.homeScore ≠ r.ftHome ∨ m.awayScore ≠ r.ftAway ∨
      m.datetimeUtc ≠ r.utcDate) :
    ∃ c' db' hid aid dbA, processOne lid (c, db) r = (c', db') ∧
      getOrCreateEntityId db "team" r.homeTeamName "football" r.homeTeamSourceId none
        = (some hid, dbA) ∧
      (∃ dbB, getOrCreateEntityId dbA "team" r.awayTeamName "football"
          r.awayTeamSourceId none = (some aid, dbB)) ∧
      c'.um = c.um + 1 ∧ c'.im = c.im ∧
      db'.matchRows.length = db.matchRows.length ∧
      db'.matchRows.find? (matchKeyB r.sourceMatchId) = some
        { m with
          leagueId := lid, homeTeamId := hid, awayTeamId := aid,
          datetimeUtc := r.utcDate, status := r.status,
          homeScore := r.ftHome, awayScore := r.ftAway,
          winner := computeWinner r.ftHome r.ftAway,
          stage := r.stage, matchday := r.matchday, isMock := 0 } := by
  obtain ⟨hid, dbA, e1, hsomeA, ⟨ts1, hts1⟩, hlgA, hmA, hoA, hnmA, hnoA⟩ :=
    resolve_team_post db r.homeTeamName r.homeTeamSourceId none hhn
  obtain ⟨aid, dbB, e2, hsomeB, ⟨ts2, hts2⟩, hlgB, hmB, hoB, hnmB, hnoB⟩ :=
    resolve_team_post dbA r.awayTeamName r.awayTeamSourceId none han
  have hfmB : dbB.matchRows.find? (matchKeyB r.sourceMatchId) = some m := by
    rw [hmB, hmA]; exact hfm
  obtain ⟨c', db', hPO, him, hum, hteams', hlg', hm', hnm', hoddsDelta, hoddsFind⟩ :=
    processOdds_spec m.matchId r { c with um := c.um + 1 }
      { dbB with
        matchRows := (replaceFirst (matchKeyB r.sourceMatchId)
          (fun x => { x with
             leagueId := lid, homeTeamId := hid, awayTeamId := aid,
             datetimeUtc := r.utcDate, status := r.status,
             homeScore := r.ftHome, awayScore := r.ftAway,
             winner := computeWinner r.ftHome r.ftAway,
             stage := r.stage, matchday := r.matchday, isMock := 0 })
          dbB.matchRows) }
  have hrun : processOne lid (c, db) r = (c', db') := by
    unfold processOne
    dsimp only
    rw [if_neg (by simp [hhn, han]), e1]
    dsimp only
    rw [e2]
    dsimp only
    rw [hfmB]
    dsimp only
    rw [if_pos hdiff]
    exact hPO
  have hkey : matchKeyB r.sourceMatchId ({ m with
      leagueId := lid, homeTeamId := hid, awayTeamId := aid,
      datetimeUtc := r.utcDate, status := r.status,
      homeScore := r.ftHome, awayScore := r.ftAway,
      winner := computeWinner r.ftHome r.ftAway,
      stage := r.stage, matchday := r.matchday, isMock := 0 } : MatchRow) = true := by
    have := List.find?_some hfmB
    simpa [matchKeyB] using this
  refine ⟨c', db', hid, aid, dbA, hrun, e1, ⟨dbB, e2⟩, hum, him, ?_, ?_⟩
  · rw [hm']
    show (replaceFirst _ _ dbB.matchRows).length = db.matchRows.length
    rw [length_replaceFirst, hmB, hmA]
  · rw [hm']
    show (replaceFirst _ _ dbB.matchRows).find? (matchKeyB r.sourceMatchId) = _
    exact find?_replaceFirst_found hfmB hkey

end HistColl

open DBImp in
/-- Counterexample to C2: the Kaggle importer's ON CONFLICT DO NOTHING write
at a store holding the natural key with scores 1–0 and an incoming record
with scores 3–3: the stored row keeps its old scores, no update is
performed and none is reported. -/
theorem C2_counterexample_kaggle_conflict_no_update :
    kaggleInsertMatch
        [⟨1, "1998-07-12 00:00:00", 1, 2, 1, "FINISHED", some 1, some 0,
          "Kaggle/martj42_intl_results", "k1"⟩] 2
        "1998-07-12 00:00:00" 1 2 1 3 3 "Kaggle/martj42_intl_results" "k1" =
      ([⟨1, "1998-07-12 00:00:00", 1, 2, 1, "FINISHED", some 1, some 0,
         "Kaggle/martj42_intl_results", "k1"⟩], 2, false) := by decide

open HistColl DBImp in
/-- C2 amended: where an upsert has an update path, a key-matching record
with differing status/scores updates the existing row in place and the
match count does not increase — process_and_store_matches rewrites the
row's scores and derived winner and counts updated = 1, and
import_thesportsdb_events overwrites status/scores (its schema has no
winner column) via ON CONFLICT DO UPDATE, reporting an affected row,
without adding a row; but import_kaggle_international_results uses ON
CONFLICT DO NOTHING and leaves the conflicting row untouched, reporting
nothing. -/
theorem C2_amended_update_not_duplicate :
    (∀ (lid : Nat) (c : Counts) (db : HistColl.DB) (r : ApiMatch) (m : MatchRow),
      r.homeTeamName ≠ "" → r.awayTeamName ≠ "" →
      db.matchRows.find? (matchKeyB r.sourceMatchId) = some m →
      (m.status ≠ r.status ∨ m.homeScore ≠ r.ftHome ∨ m.awayScore ≠ r.ftAway ∨
        m.datetimeUtc ≠ r.utcDate) →
      ∃ c' db' row, processOne lid (c, db) r = (c', db') ∧
        c'.um = c.um + 1 ∧ c'.im = c.im ∧
        db'.matchRows.length = db.matchRows.length ∧
        db'.matchRows.find? (matchKeyB r.sourceMatchId) = some row ∧
        row.homeScore = r.ftHome ∧ row.awayScore = r.ftAway ∧
        row.winner = computeWinner r.ftHome r.ftAway ∧ row.status = r.status) ∧
    (∀ (rows : List DIMatchRow) (nextId : Nat) (dt : String) (h a l : Nat)
       (st : String) (hs aw : Option Int) (src sid : String),
      rows.any (diKeyB dt h a src) = true →
      (tsdbUpsertMatch rows nextId dt h a l st hs aw src sid).1.length = rows.length ∧
      (tsdbUpsertMatch rows nextId dt h a l st hs aw src sid).2.2 = true ∧
      (∀ x ∈ (tsdbUpsertMatch rows nextId dt h a l st hs aw src sid).1,
        diKeyB dt h a src x = true →
        x.status = st ∧ x.homeScore = hs ∧ x.awayScore = aw ∧ x.sourceMatchId = sid)) ∧
    (∀ (rows : List DIMatchRow) (nextId : Nat) (dt : String) (h a l : Nat)
       (hs aw : Int) (src sid : String),
      rows.any (diKeyB dt h a src) = true →
      kaggleInsertMatch rows nextId dt h a l hs aw src sid = (rows, nextId, false)) := by
  refine ⟨?_, ?_, ?_⟩
  · intro lid c db r m hhn han hfm hdiff
    obtain ⟨c', db', hid, aid, dbA, hrun, -, -, hum, him, hlen, hfind⟩ :=
      processOne_update lid c hhn han hfm hdiff
    exact ⟨c', db', _, hrun, hum, him, hlen, hfind, rfl, rfl, rfl, rfl⟩
  · intro rows nextId dt h a l st hs aw src sid hc
    unfold tsdbUpsertMatch
    rw [if_pos hc]
    refine ⟨by simp, rfl, ?_⟩
    intro x hx hkx
    obtain ⟨y, hy, hyx⟩ := List.mem_map.mp hx
    by_cases hky : diKeyB dt h a src y
    · rw [if_pos hky] at hyx
      rw [← hyx]
      exact ⟨rfl, rfl, rfl, rfl⟩
    · rw [if_neg hky] at hyx
      rw [← hyx] at hkx
      exact absurd hkx (by simpa using hky)
  · intro rows nextId dt h a l hs aw src sid hc
    unfold kaggleInsertMatch
    rw [if_pos hc]

open HistColl DBImp in
/-- Witness for C2 (amended): the three conjuncts applied at concrete
conflicting inputs — a SCHEDULED stored match turning FINISHED 2–1 through
processOne; a goal update through the TheSportsDB upsert; a duplicate row
ignored by the Kaggle insert. -/
theorem C2_amended_update_not_duplicate_witness :
    (∃ c' db' row,
      processOne 1 (⟨0, 0, 0, 0⟩,
        ⟨[⟨1, "League A", "football", none, none⟩],
         [⟨1, "Team A", "football", none⟩, ⟨2, "Team B", "football", none⟩],
         [⟨1, 1, 1, 2, some "D1", some "SCHEDULED", none, none, none, none, none, 0,
           "123", "football-data.org-history"⟩], [], 2, 3, 2, 1⟩)
        ⟨"Team A", none, "Team B", none, some "D1", some "FINISHED", some 2, some 1,
          none, none, "123", none⟩ = (c', db') ∧
      c'.um = 0 + 1 ∧ c'.im = 0 ∧
      db'.matchRows.length = 1 ∧
      db'.matchRows.find? (matchKeyB "123") = some row ∧
      row.homeScore = some 2 ∧ row.awayScore = some 1 ∧
      row.winner = computeWinner (some 2) (some 1) ∧ row.status = some "FINISHED") ∧
    ((tsdbUpsertMatch [⟨1, "D1", 1, 2, 1, "SCHEDULED", none, none, "TheSportsDB", "e1"⟩]
        2 "D1" 1 2 1 "FINISHED" (some 3) (some 1) "TheSportsDB" "e1").1.length = 1) ∧
    (kaggleInsertMatch [⟨1, "D1", 1, 2, 1, "FINISHED", some 1, some 0, "K", "k1"⟩]
        2 "D1" 1 2 1 9 9 "K" "k1" = ([⟨1, "D1", 1, 2, 1, "FINISHED", some 1, some 0,
          "K", "k1"⟩], 2, false)) := by
  refine ⟨?_, ?_, ?_⟩
  · have h := C2_amended_update_not_duplicate.1 1 ⟨0, 0, 0, 0⟩
      ⟨[⟨1, "League A", "football", none, none⟩],
       [⟨1, "Team A", "football", none⟩, ⟨2, "Team B", "football", none⟩],
       [⟨1, 1, 1, 2, some "D1", some "SCHEDULED", none, none, none, none, none, 0,
         "123", "football-data.org-history"⟩], [], 2, 3, 2, 1⟩
      ⟨"Team A", none, "Team B", none, some "D1", some "FINISHED", some 2, some 1,
        none, none, "123", none⟩
      ⟨1, 1, 1, 2, some "D1", some "SCHEDULED", none, none, none, none, none, 0,
        "123", "football-data.org-history"⟩
      (by decide) (by decide) (by decide) (by decide)
    exact h
  · exact ((C2_amended_update_not_duplicate.2.1
      [⟨1, "D1", 1, 2, 1, "SCHEDULED", none, none, "TheSportsDB", "e1"⟩]
      2 "D1" 1 2 1 "FINISHED" (some 3) (some 1) "TheSportsDB" "e1") (by decide)).1
  · exact C2_amended_update_not_duplicate.2.2
      [⟨1, "D1", 1, 2, 1, "FINISHED", some 1, some 0, "K", "k1"⟩]
      2 "D1" 1 2 1 9 9 "K" "k1" (by decide)

open HistColl in
/-- Counterexample to C3: process_and_store_matches given a source record
with status FINISHED and both fullTime scores null stores the row with
status FINISHED, null scores and null winner — the status is not downgraded
to any AWAITING_SCORES/UNKNOWN_SCORE sentinel (the code only logs a
warning). -/
theorem C3_counterexample_finished_status_kept :
    ((process_and_store_matches ⟨[], [], [], [], 1, 1, 1, 1⟩
        [⟨"Team A", none, "Team B", none, some "D1", some "FINISHED", none, none,
          none, none, "99", none⟩] "League A" none none true).2.matchRows.map
      (fun m => (m.status, m.homeScore, m.awayScore, m.winner))) =
      [(some "FINISHED", none, none, none)] := by decide

open HistColl DBImp in
/-- C3 amended: the derived winner follows the score comparison whenever
both scores are present and is null whenever either is absent (in every
upsert that stores a winner); import_football_data_org_historical_json
downgrades a FINISHED record with a missing score to UNKNOWN_SCORE and
import_thesportsdb_events to AWAITING_SCORES, but process_and_store_matches
writes the source-supplied status unchanged, so FINISHED with null scores
is stored as-is with winner null. -/
theorem C3_amended_winner_and_status :
    (∀ h a : Int,
      (h > a → computeWinner (some h) (some a) = some "HOME_TEAM") ∧
      (a > h → computeWinner (some h) (some a) = some "AWAY_TEAM") ∧
      (h = a → computeWinner (some h) (some a) = some "DRAW")) ∧
    (∀ hs aw : Option Int, hs = none ∨ aw = none → computeWinner hs aw = none) ∧
    (∀ (hs aw : Option Int), hs.isNone ∨ aw.isNone →
      (fdOrgStatusScores "FINISHED" hs aw).1 = "UNKNOWN_SCORE") ∧
    (∀ (sApi : String) (hs aw : Option Int),
      (sApi = "MATCH FINISHED" ∨ sApi = "FT" ∨ sApi = "AET" ∨ sApi = "PEN" ∨
        sApi = "FINISHED") → hs.isNone ∨ aw.isNone →
      (tsdbStatusScores sApi hs aw).1 = "AWAITING_SCORES") ∧
    (∀ (lid : Nat) (c : Counts) (db : HistColl.DB) (r : ApiMatch),
      r.homeTeamName ≠ "" → r.awayTeamName ≠ "" →
      db.matchRows.find? (matchKeyB r.sourceMatchId) = none →
      ∃ db' hid aid, (processOne lid (c, db) r).2 = db' ∧
        db'.matchRows = db.matchRows ++
          [⟨db.nextMatchId, lid, hid, aid, r.utcDate, r.status, r.ftHome, r.ftAway,
            computeWinner r.ftHome r.ftAway, r.stage, r.matchday, 0,
            r.sourceMatchId, sourceNameHist⟩]) := by
  refine ⟨?_, ?_, ?_, ?_, ?_⟩
  · intro h a
    refine ⟨fun hgt => ?_, fun hgt => ?_, fun heq => ?_⟩
    · unfold computeWinner; dsimp only; rw [if_pos hgt]
    · unfold computeWinner; dsimp only
      rw [if_neg (by omega), if_pos hgt]
    · unfold computeWinner; dsimp only
      rw [if_neg (by omega), if_neg (by omega)]
  · intro hs aw hnone
    unfold computeWinner
    rcases hnone with rfl | rfl
    · rfl
    · cases hs <;> rfl
  · intro hs aw hnone
    unfold fdOrgStatusScores
    rw [if_pos rfl, if_pos (by simpa using hnone)]
  · intro sApi hs aw hfin hnone
    unfold tsdbStatusScores
    rw [if_pos hfin, if_pos (by simpa using hnone)]
  · intro lid c db r hhn han hfresh
    obtain ⟨c', db', hrun, -, -, -, -, hid, aid, hrow⟩ :=
      processOne_fresh lid c hhn han hfresh
    exact ⟨db', hid, aid, by rw [hrun], hrow⟩

open HistColl DBImp in
/-- Witness for C3 (amended): winner derivation at 2–1, 0–3, 1–1 and with a
missing score; the two downgrade paths at a finished status with a null
away score; and the insert path of processOne storing the FINISHED status
unchanged with winner null. -/
theorem C3_amended_winner_and_status_witness :
    computeWinner (some 2) (some 1) = some "HOME_TEAM" ∧
    computeWinner (some 0) (some 3) = some "AWAY_TEAM" ∧
    computeWinner (some 1) (some 1) = some "DRAW" ∧
    computeWinner (some 2) none = none ∧
    (fdOrgStatusScores "FINISHED" (some 1) none).1 = "UNKNOWN_SCORE" ∧
    (tsdbStatusScores "FT" (some 1) none).1 = "AWAITING_SCORES" ∧
    (∃ db' hid aid,
      (processOne 1 (⟨0, 0, 0, 0⟩, (⟨[], [], [], [], 1, 1, 1, 1⟩ : HistColl.DB))
        ⟨"Team A", none, "Team B", none, some "D1", some "FINISHED", none, none,
          none, none, "99", none⟩).2 = db' ∧
      db'.matchRows = ([] : List MatchRow) ++
        [⟨1, 1, hid, aid, some "D1", some "FINISHED", none, none,
          computeWinner none none, none, none, 0, "99", sourceNameHist⟩]) :=
  ⟨(C3_amended_winner_and_status.1 2 1).1 (by decide),
   (C3_amended_winner_and_status.1 0 3).2.1 (by decide),
   (C3_amended_winner_and_status.1 1 1).2.2 (by decide),
   C3_amended_winner_and_status.2.1 (some 2) none (Or.inr rfl),
   C3_amended_winner_and_status.2.2.1 (some 1) none (Or.inr (by decide)),
   C3_amended_winner_and_status.2.2.2.1 "FT" (some 1) none (Or.inr (Or.inl rfl))
     (Or.inr (by decide)),
   C3_amended_winner_and_status.2.2.2.2 1 ⟨0, 0, 0, 0⟩ ⟨[], [], [], [], 1, 1, 1, 1⟩
     ⟨"Team A", none, "Team B", none, some "D1", some "FINISHED", none, none,
       none, none, "99", none⟩ (by decide) (by decide) (by decide)⟩

open HistColl in
/-- Counterexample to C5: an update triggered by a status change rewrites
the league reference of the existing row — the stored match under league 1
is reassigned to the league (id 2) resolved for the incoming batch, so an
identity field of the row changes on the update path. -/
theorem C5_counterexample_update_rewrites_league :
    ((process_and_store_matches
        ⟨[⟨1, "League A", "football", none, none⟩],
         [⟨1, "Team A", "football", none⟩, ⟨2, "Team B", "football", none⟩],
         [⟨1, 1, 1, 2, some "D1", some "SCHEDULED", none, none, none, none, none, 0,
           "123", "football-data.org-history"⟩], [], 2, 3, 2, 1⟩
        [⟨"Team A", none, "Team B", none, some "D1", some "FINISHED", some 2, some 1,
          none, none, "123", none⟩]
        "League B" none none true).2.matchRows.map (fun m => m.leagueId)) = [2] ∧
    ([⟨1, 1, 1, 2, some "D1", some "SCHEDULED", none, none, none, none, none, 0,
       "123", "football-data.org-history"⟩] : List MatchRow).map
      (fun m => m.leagueId) = [1] := by decide

open HistColl DBImp in
/-- C5 amended: the update path writes the full field map — league/home/away
references are rewritten with the values resolved for the incoming record
(hence unchanged exactly when resolution agrees with the stored row), and
stage/matchday/is_mock are rewritten alongside the mutable
status/scores/winner/kickoff; the row's rowid, source_match_id and
source_name are never touched.  The TheSportsDB DO UPDATE never rewrites
league_id or the key columns (datetime/home/away/source). -/
theorem C5_amended_update_field_map :
    (∀ (lid : Nat) (c : Counts) (db : HistColl.DB) (r : ApiMatch) (m : MatchRow),
      r.homeTeamName ≠ "" → r.awayTeamName ≠ "" →
      db.matchRows.find? (matchKeyB r.sourceMatchId) = some m →
      (m.status ≠ r.status ∨ m.homeScore ≠ r.ftHome ∨ m.awayScore ≠ r.ftAway ∨
        m.datetimeUtc ≠ r.utcDate) →
      ∃ c' db' hid aid dbA row, processOne lid (c, db) r = (c', db') ∧
        getOrCreateEntityId db "team" r.homeTeamName "football" r.homeTeamSourceId none
          = (some hid, dbA) ∧
        (∃ dbB, getOrCreateEntityId dbA "team" r.awayTeamName "football"
            r.awayTeamSourceId none = (some aid, dbB)) ∧
        db'.matchRows.find? (matchKeyB r.sourceMatchId) = some row ∧
        row.matchId = m.matchId ∧ row.sourceMatchId = m.sourceMatchId ∧
        row.sourceName = m.sourceName ∧
        row.leagueId = lid ∧ row.homeTeamId = hid ∧ row.awayTeamId = aid ∧
        row.status = r.status ∧ row.homeScore = r.ftHome ∧ row.awayScore = r.ftAway ∧
        row.datetimeUtc = r.utcDate ∧ row.stage = r.stage ∧
        row.matchday = r.matchday ∧ row.isMock = 0 ∧
        (lid = m.leagueId → hid = m.homeTeamId → aid = m.awayTeamId →
          row.leagueId = m.leagueId ∧ row.homeTeamId = m.homeTeamId ∧
          row.awayTeamId = m.awayTeamId)) ∧
    (∀ (rows : List DIMatchRow) (nextId : Nat) (dt : String) (h a l : Nat)
       (st : String) (hs aw : Option Int) (src sid : String),
      rows.any (diKeyB dt h a src) = true →
      (tsdbUpsertMatch rows nextId dt h a l st hs aw src sid).1.map
          (fun m => (m.leagueId, m.datetime, m.homeTeamId, m.awayTeamId, m.source)) =
        rows.map (fun m => (m.leagueId, m.datetime, m.homeTeamId, m.awayTeamId,
          m.source))) := by
  constructor
  · intro lid c db r m hhn han hfm hdiff
    obtain ⟨c', db', hid, aid, dbA, hrun, e1, e2, hum, him, hlen, hfind⟩ :=
      processOne_update lid c hhn han hfm hdiff
    refine ⟨c', db', hid, aid, dbA, _, hrun, e1, e2, hfind, rfl, rfl, rfl, rfl, rfl,
      rfl, rfl, rfl, rfl, rfl, rfl, rfl, rfl, ?_⟩
    intro h1 h2 h3
    exact ⟨h1.symm ▸ rfl, h2.symm ▸ rfl, h3.symm ▸ rfl⟩
  · intro rows nextId dt h a l st hs aw src sid hc
    unfold tsdbUpsertMatch
    rw [if_pos hc]
    show (rows.map _).map _ = rows.map _
    rw [List.map_map]
    refine List.map_congr_left ?_
    intro x hx
    by_cases hkx : diKeyB dt h a src x
    · simp only [Function.comp_apply, if_pos hkx]
    · simp only [Function.comp_apply, if_neg hkx]

open HistColl DBImp in
/-- Witness for C5 (amended): the update-path conjunct at the same concrete
store as the counterexample (showing the rewritten references), and the
TheSportsDB conjunct at a one-row conflict. -/
theorem C5_amended_update_field_map_witness :
    (∃ c' db' hid aid dbA row,
      processOne 2 (⟨0, 0, 0, 0⟩,
        ⟨[⟨1, "League A", "football", none, none⟩, ⟨2, "League B", "football", none, none⟩],
         [⟨1, "Team A", "football", none⟩, ⟨2, "Team B", "football", none⟩],
         [⟨1, 1, 1, 2, some "D1", some "SCHEDULED", none, none, none, none, none, 0,
           "123", "football-data.org-history"⟩], [], 3, 3, 2, 1⟩)
        ⟨"Team A", none, "Team B", none, some "D1", some "FINISHED", some 2, some 1,
          none, none, "123", none⟩ = (c', db') ∧
      getOrCreateEntityId
        ⟨[⟨1, "League A", "football", none, none⟩, ⟨2, "League B", "football", none, none⟩],
         [⟨1, "Team A", "football", none⟩, ⟨2, "Team B", "football", none⟩],
         [⟨1, 1, 1, 2, some "D1", some "SCHEDULED", none, none, none, none, none, 0,
           "123", "football-data.org-history"⟩], [], 3, 3, 2, 1⟩
        "team" "Team A" "football" none none = (some hid, dbA) ∧
      (∃ dbB, getOrCreateEntityId dbA "team" "Team B" "football" none none
        = (some aid, dbB)) ∧
      db'.matchRows.find? (matchKeyB "123") = some row ∧
      row.matchId = 1 ∧ row.sourceMatchId = "123" ∧
      row.sourceName = "football-data.org-history" ∧
      row.leagueId = 2 ∧ row.homeTeamId = hid ∧ row.awayTeamId = aid ∧
      row.status = some "FINISHED" ∧ row.homeScore = some 2 ∧
      row.awayScore = some 1 ∧ row.datetimeUtc = some "D1" ∧ row.stage = none ∧
      row.matchday = none ∧ row.isMock = 0 ∧
      (2 = 1 → hid = 1 → aid = 2 → row.leagueId = 1 ∧ row.homeTeamId = 1 ∧
        row.awayTeamId = 2)) ∧
    ((tsdbUpsertMatch [⟨1, "D1", 1, 2, 7, "SCHEDULED", none, none, "TheSportsDB", "e1"⟩]
        2 "D1" 1 2 9 "FINISHED" (some 3) (some 1) "TheSportsDB" "e1").1.map
        (fun m => (m.leagueId, m.datetime, m.homeTeamId, m.awayTeamId, m.source)) =
      ([⟨1, "D1", 1, 2, 7, "SCHEDULED", none, none, "TheSportsDB", "e1"⟩] :
          List DIMatchRow).map
        (fun m => (m.leagueId, m.datetime, m.homeTeamId, m.awayTeamId, m.source))) :=
  ⟨C5_amended_update_field_map.1 2 ⟨0, 0, 0, 0⟩
      ⟨[⟨1, "League A", "football", none, none⟩, ⟨2, "League B", "football", none, none⟩],
       [⟨1, "Team A", "football", none⟩, ⟨2, "Team B", "football", none⟩],
       [⟨1, 1, 1, 2, some "D1", some "SCHEDULED", none, none, none, none, none, 0,
         "123", "football-data.org-history"⟩], [], 3, 3, 2, 1⟩
      ⟨"Team A", none, "Team B", none, some "D1", some "FINISHED", some 2, some 1,
        none, none, "123", none⟩
      ⟨1, 1, 1, 2, some "D1", some "SCHEDULED", none, none, none, none, none, 0,
        "123", "football-data.org-history"⟩
      (by decide) (by decide) (by decide) (by decide),
   C5_amended_update_field_map.2
      [⟨1, "D1", 1, 2, 7, "SCHEDULED", none, none, "TheSportsDB", "e1"⟩]
      2 "D1" 1 2 9 "FINISHED" (some 3) (some 1) "TheSportsDB" "e1" (by decide)⟩

namespace OpenFoot

theorem find?_map_keyfix {α : Type} (g : α → α) (p : α → Bool) (l : List α)
    (hp : ∀ x, p (g x) = p x) : (l.map g).find? p = (l.find? p).map g := by
  induction l with
  | nil => rfl
  | cons x xs ih =>
    rw [List.map_cons]
    by_cases hx : p x
    · rw [List.find?_cons_of_pos _ (by rw [hp]; exact hx), List.find?_cons_of_pos _ hx]
      rfl
    · rw [List.find?_cons_of_neg _ (by rw [hp]; simpa using hx),
        List.find?_cons_of_neg _ hx]
      exact ih

end OpenFoot

open HistColl OpenFoot in
/-- C6: resolving the same (name, sport) with collect_openfootball's
_get_or_create_entity_id twice — first without a source id, then with a
non-empty one — returns the same internal id both times, adds no row on the
second call, and leaves the row the lookup resolves to carrying the later
source id, for the league table and the team table alike. -/
theorem C6_entity_dedup_source_id_backfill (db : HistColl.DB)
    (name sport s : String) (country : Option String)
    (hn : name ≠ "") (hsp : sport ≠ "") (hsv : s ≠ "") :
    (∃ i db1 db2 x,
      _get_or_create_entity_id db "league" name sport none country = (some i, db1) ∧
      _get_or_create_entity_id db1 "league" name sport (some s) country
        = (some i, db2) ∧
      db2.leagues.length = db1.leagues.length ∧
      db2.leagues.find? (leagueKeyB name sport) = some x ∧
      x.leagueId = i ∧ x.sourceLeagueId = some s) ∧
    (∃ i db1 db2 x,
      _get_or_create_entity_id db "team" name sport none country = (some i, db1) ∧
      _get_or_create_entity_id db1 "team" name sport (some s) country = (some i, db2) ∧
      db2.teams.length = db1.teams.length ∧
      db2.teams.find? (teamKeyB name sport) = some x ∧
      x.teamId = i ∧ x.sourceTeamId = some s) := by
  constructor
  · cases hf : db.leagues.find? (leagueKeyB name sport) with
    | some L =>
      have e1 : _get_or_create_entity_id db "league" name sport none country
          = (some L.leagueId, db) := by
        unfold _get_or_create_entity_id
        rw [if_neg (by simp [hn, hsp]), if_pos rfl, hf]
        rfl
      by_cases hbs : L.sourceLeagueId = some s
      · have e2 : _get_or_create_entity_id db "league" name sport (some s) country
            = (some L.leagueId, db) := by
          unfold _get_or_create_entity_id
          rw [if_neg (by simp [hn, hsp]), if_pos rfl, hf]
          dsimp only
          rw [if_neg (by simp [hbs])]
        exact ⟨L.leagueId, db, db, L, e1, e2, rfl, hf, rfl, hbs⟩
      · have e2 : _get_or_create_entity_id db "league" name sport (some s) country
            = (some L.leagueId,
               { db with leagues := (db.leagues.map (fun x =>
                   if x.leagueId = L.leagueId then { x with sourceLeagueId := some s }
                   else x)) }) := by
          unfold _get_or_create_entity_id
          rw [if_neg (by simp [hn, hsp]), if_pos rfl, hf]
          dsimp only
          rw [if_pos (by simp [hsv, hbs])]
        refine ⟨L.leagueId, db, _, { L with sourceLeagueId := some s },
          e1, e2, by simp, ?_, rfl, rfl⟩
        show (db.leagues.map _).find? (leagueKeyB name sport) = _
        rw [find?_map_keyfix _ _ _ (fun x => by
          by_cases hx : x.leagueId = L.leagueId <;>
            simp [hx, HistColl.leagueKeyB]), hf]
        simp
    | none =>
      have e1 : _get_or_create_entity_id db "league" name sport none country
          = (some db.nextLeagueId,
             { db with
               leagues := db.leagues ++
                 ([⟨db.nextLeagueId, name, sport, country, none⟩] : List LeagueRow),
               nextLeagueId := db.nextLeagueId + 1 }) := by
        unfold _get_or_create_entity_id
        rw [if_neg (by simp [hn, hsp]), if_pos rfl, hf]
      have hfind1 : (db.leagues ++
          ([⟨db.nextLeagueId, name, sport, country, none⟩] : List LeagueRow)).find?
            (leagueKeyB name sport) =
          some (⟨db.nextLeagueId, name, sport, country, none⟩ : LeagueRow) := by
        rw [HistColl.find?_append_none _ hf]
        rw [List.find?_cons_of_pos _ (by simp [HistColl.leagueKeyB])]
      have e2 : _get_or_create_entity_id
          { db with
            leagues := db.leagues ++
              ([⟨db.nextLeagueId, name, sport, country, none⟩] : List LeagueRow),
            nextLeagueId := db.nextLeagueId + 1 } "league" name sport (some s) country
          = (some db.nextLeagueId,
             { db with
               leagues := ((db.leagues ++
                 ([⟨db.nextLeagueId, name, sport, country, none⟩] : List LeagueRow)).map
                   (fun x =>
                     if x.leagueId = db.nextLeagueId then
                       { x with sourceLeagueId := some s } else x)),
               nextLeagueId := db.nextLeagueId + 1 }) := by
        unfold _get_or_create_entity_id
        rw [if_neg (by simp [hn, hsp]), if_pos rfl, hfind1]
        dsimp only
        rw [if_pos (by simp [hsv])]
      refine ⟨db.nextLeagueId, _, _, ⟨db.nextLeagueId, name, sport, country, some s⟩,
        e1, e2, by simp, ?_, rfl, rfl⟩
      show ((db.leagues ++ _).map _).find? (leagueKeyB name sport) = _
      rw [find?_map_keyfix _ _ _ (fun x => by
        by_cases hx : x.leagueId = db.nextLeagueId <;>
          simp [hx, HistColl.leagueKeyB]), hfind1]
      simp
  · cases hf : db.teams.find? (teamKeyB name sport) with
    | some t =>
      have e1 : _get_or_create_entity_id db "team" name sport none country
          = (some t.teamId, db) := by
        unfold _get_or_create_entity_id
        rw [if_neg (by simp [hn, hsp]), if_neg (by decide), hf]
        rfl
      by_cases hbs : t.sourceTeamId = some s
      · have e2 : _get_or_create_entity_id db "team" name sport (some s) country
            = (some t.teamId, db) := by
          unfold _get_or_create_entity_id
          rw [if_neg (by simp [hn, hsp]), if_neg (by decide), hf]
          dsimp only
          rw [if_neg (by simp [hbs])]
        exact ⟨t.teamId, db, db, t, e1, e2, rfl, hf, rfl, hbs⟩
      · have e2 : _get_or_create_entity_id db "team" name sport (some s) country
            = (some t.teamId,
               { db with teams := (db.teams.map (fun x =>
                   if x.teamId = t.teamId then { x with sourceTeamId := some s }
                   else x)) }) := by
          unfold _get_or_create_entity_id
          rw [if_neg (by simp [hn, hsp]), if_neg (by decide), hf]
          dsimp only
          rw [if_pos (by simp [hsv, hbs])]
        refine ⟨t.teamId, db, _, { t with sourceTeamId := some s },
          e1, e2, by simp, ?_, rfl, rfl⟩
        show (db.teams.map _).find? (teamKeyB name sport) = _
        rw [find?_map_keyfix _ _ _ (fun x => by
          by_cases hx : x.teamId = t.teamId <;> simp [hx, HistColl.teamKeyB]), hf]
        simp
    | none =>
      have e1 : _get_or_create_entity_id db "team" name sport none country
          = (some db.nextTeamId,
             { db with
               teams := db.teams ++ ([⟨db.nextTeamId, name, sport, none⟩] : List TeamRow),
               nextTeamId := db.nextTeamId + 1 }) := by
        unfold _get_or_create_entity_id
        rw [if_neg (by simp [hn, hsp]), if_neg (by decide), hf]
      have hfind1 : (db.teams ++
          ([⟨db.nextTeamId, name, sport, none⟩] : List TeamRow)).find?
            (teamKeyB name sport) =
          some (⟨db.nextTeamId, name, sport, none⟩ : TeamRow) := by
        rw [HistColl.find?_append_none _ hf]
        rw [List.find?_cons_of_pos _ (by simp [HistColl.teamKeyB])]
      have e2 : _get_or_create_entity_id
          { db with
            teams := db.teams ++ ([⟨db.nextTeamId, name, sport, none⟩] : List TeamRow),
            nextTeamId := db.nextTeamId + 1 } "team" name sport (some s) country
          = (some db.nextTeamId,
             { db with
               teams := ((db.teams ++
                 ([⟨db.nextTeamId, name, sport, none⟩] : List TeamRow)).map
                 (fun x =>
                   if x.teamId = db.nextTeamId then { x with sourceTeamId := some s }
                   else x)),
               nextTeamId := db.nextTeamId + 1 }) := by
        unfold _get_or_create_entity_id
        rw [if_neg (by simp [hn, hsp]), if_neg (by decide), hfind1]
        dsimp only
        rw [if_pos (by simp [hsv])]
      refine ⟨db.nextTeamId, _, _, ⟨db.nextTeamId, name, sport, some s⟩,
        e1, e2, by simp, ?_, rfl, rfl⟩
      show ((db.teams ++ _).map _).find? (teamKeyB name sport) = _
      rw [find?_map_keyfix _ _ _ (fun x => by
        by_cases hx : x.teamId = db.nextTeamId <;> simp [hx, HistColl.teamKeyB]),
        hfind1]
      simp

open HistColl OpenFoot in
/-- Witness for C6: the dedup/backfill behaviour at a store initially
holding neither entity. -/
theorem C6_entity_dedup_source_id_backfill_witness :
    (∃ i db1 db2 x,
      _get_or_create_entity_id ⟨[], [], [], [], 1, 1, 1, 1⟩ "league" "Premier League"
        "football" none (some "England") = (some i, db1) ∧
      _get_or_create_entity_id db1 "league" "Premier League" "football" (some "PL")
        (some "England") = (some i, db2) ∧
      db2.leagues.length = db1.leagues.length ∧
      db2.leagues.find? (leagueKeyB "Premier League" "football") = some x ∧
      x.leagueId = i ∧ x.sourceLeagueId = some "PL") :=
  (C6_entity_dedup_source_id_backfill ⟨[], [], [], [], 1, 1, 1, 1⟩ "Premier League"
    "football" "PL" (some "England") (by decide) (by decide) (by decide)).1

open HistColl in
/-- C9: a failed end-of-batch commit makes process_and_store_matches report
the all-zero counter tuple, whatever counts had accumulated; the same batch
with a successful commit reports its real counts (one inserted match in the
concrete instance), and the embedding performs a single commit attempt, with
no retry path. -/
theorem C9_commit_failure_reports_zero :
    (∀ (db : HistColl.DB) (records : List ApiMatch) (leagueName : String)
       (leagueApiCode country : Option String),
      (process_and_store_matches db records leagueName leagueApiCode country false).1
        = ⟨0, 0, 0, 0⟩) ∧
    ((process_and_store_matches ⟨[], [], [], [], 1, 1, 1, 1⟩
        [⟨"Team A", none, "Team B", none, some "D1", some "FINISHED", some 2, some 1,
          none, none, "55", none⟩] "League A" none none true).1
      = ⟨1, 0, 0, 0⟩) ∧
    ((process_and_store_matches ⟨[], [], [], [], 1, 1, 1, 1⟩
        [⟨"Team A", none, "Team B", none, some "D1", some "FINISHED", some 2, some 1,
          none, none, "55", none⟩] "League A" none none false).1
      = ⟨0, 0, 0, 0⟩) := by
  refine ⟨?_, by decide, by decide⟩
  intro db records leagueName leagueApiCode country
  unfold process_and_store_matches
  by_cases he : records.isEmpty
  · rw [if_pos he]
  · rw [if_neg he]
    cases hres : getOrCreateEntityId db "league" leagueName "football" leagueApiCode
        country with
    | mk o db1 =>
      cases o with
      | none => rfl
      | some lid => rfl
